import Mathlib

/-!
Verification development for the `pseudo` compiler (a small pseudo-language
to C source-to-source compiler written in Rust).  The Rust sources under
`src/compiler/` (lexer.rs, parser.rs, semantic.rs, ir.rs, codegen.rs) are
shallowly embedded below: pure functions become Lean functions, the
stateful analyzer passes its state explicitly, and every Rust panic
(`unreachable!`, `todo!`, out-of-bounds indexing, iterator `unwrap`) is
modelled by the `Res.panicked` outcome.  Loops and recursion that are not
structurally decreasing in Rust are driven by an explicit fuel parameter;
`Res.fuelOut` marks fuel exhaustion, so a function whose result is
`.fuelOut` for every fuel amount provably diverges.
-/

/-- Outcome of running a piece of embedded Rust code: a normal result,
a process-aborting panic, or fuel exhaustion of the embedding. -/
inductive Res (α : Type) where
  | ok : α → Res α
  | panicked : Res α
  | fuelOut : Res α
  deriving Repr, DecidableEq

namespace Res

def bind {α β : Type} : Res α → (α → Res β) → Res β
  | ok a, f => f a
  | panicked, _ => panicked
  | fuelOut, _ => fuelOut

def map {α β : Type} : Res α → (α → β) → Res β
  | ok a, f => ok (f a)
  | panicked, _ => panicked
  | fuelOut, _ => fuelOut

instance : Monad Res where
  pure := Res.ok
  bind := Res.bind

@[simp] theorem bind_ok {α β : Type} (a : α) (f : α → Res β) :
    Res.bind (Res.ok a) f = f a := rfl

@[simp] theorem bind_panicked {α β : Type} (f : α → Res β) :
    Res.bind (Res.panicked) f = Res.panicked := rfl

@[simp] theorem bind_fuelOut {α β : Type} (f : α → Res β) :
    Res.bind (Res.fuelOut) f = Res.fuelOut := rfl

@[simp] theorem pure_eq_ok {α : Type} (a : α) : (pure a : Res α) = Res.ok a := rfl

@[simp] theorem monad_bind_eq_bind {α β : Type} (x : Res α) (f : α → Res β) :
    (x >>= f) = Res.bind x f := rfl

end Res

/-! Lexer data model (src/compiler/lexer.rs)

`TokenKind` mirrors the Rust enum of the same name, `Token` the struct
carrying kind and source position, and `Lexer` the iterator state
(`source` as a vector of chars plus `pos`/`read_pos`/`row`/`column`). -/

inductive TokenKind where
  | colon | comma | lparen | rparen | semicolon | equal | equalEqual
  | notEqual | not | minus | plus | slash | percent | star | walrus
  | func | proc | start | stop | write | ret | and | ifK | elseK | endK
  | thenK | or | set | mut | trueK | falseK
  | int | nat | str | bool
  | number (s : String)
  | string (s : String)
  | ident (s : String)
  | eof
  | illegal (c : Char)
  deriving Repr, DecidableEq

/-- Embeds `impl fmt::Display for TokenKind` (used in parser error messages). -/
def TokenKind.display : TokenKind → String
  | .colon => ":"
  | .comma => ","
  | .walrus => ":="
  | .minus => "-"
  | .star => "*"
  | .percent => "%"
  | .slash => "/"
  | .plus => "+"
  | .lparen => "("
  | .rparen => ")"
  | .semicolon => ";"
  | .mut => "mut"
  | .trueK => "true"
  | .falseK => "false"
  | .and => "and"
  | .func => "func"
  | .not => "!"
  | .or => "or"
  | .equal => "="
  | .equalEqual => "=="
  | .notEqual => "!="
  | .ifK => "if"
  | .elseK => "else"
  | .thenK => "then"
  | .endK => "end"
  | .proc => "proc"
  | .start => "start"
  | .stop => "stop"
  | .set => "set"
  | .write => "write"
  | .ret => "return"
  | .int => "int"
  | .nat => "nat"
  | .str => "string"
  | .bool => "bool"
  | .number num => "number \"" ++ num ++ "\""
  | .string s => "string \"" ++ s ++ "\""
  | .ident s => "identifier \"" ++ s ++ "\""
  | .eof => "eof"
  | .illegal c => "illegal " ++ String.mk [c]

structure Token where
  kind : TokenKind
  filename : String
  column : Nat
  row : Nat
  deriving Repr, DecidableEq

structure Lexer where
  source : List Char
  pos : Nat
  read_pos : Nat
  row : Nat
  column : Nat
  filename : String
  deriving Repr, DecidableEq

namespace Lexer

/-- Embeds `Lexer::new`. -/
def new (filename : String) (source : String) : Lexer :=
  { source := source.toList, column := 0, row := 1, pos := 0, read_pos := 0,
    filename := filename }

/-- Embeds `Lexer::peek`: returns `'\0'` at or past end of input. -/
def peek (l : Lexer) : Char :=
  if l.read_pos ≥ l.source.length then '\x00'
  else l.source.getD l.read_pos '\x00'

/-- Embeds `Lexer::peek_next`.  The Rust guard checks `read_pos >= len` but
the body indexes `source[read_pos + 1]`, so when `read_pos < len` the access
`read_pos + 1` can still fall out of bounds; that out-of-bounds index is
modelled by `none`. -/
def peek_next (l : Lexer) : Option Char :=
  if l.read_pos ≥ l.source.length then some '\x00'
  else l.source.get? (l.read_pos + 1)

/-- Embeds `Lexer::advance`: at end of input it returns `'\0'` and leaves
the state unchanged, otherwise it consumes one character. -/
def advance (l : Lexer) : Char × Lexer :=
  if l.read_pos ≥ l.source.length then ('\x00', l)
  else (l.source.getD l.read_pos '\x00',
        { l with column := l.column + 1, pos := l.read_pos,
                 read_pos := l.read_pos + 1 })

/-- Embeds the inner `while self.peek() != '\n'` comment-skipping loop of
`Lexer::skip_whitespace` (fuel-driven). -/
def comment_loop : Nat → Lexer → Res Lexer
  | 0, _ => .fuelOut
  | fuel + 1, l =>
    if peek l ≠ '\n' then comment_loop fuel (advance l).2
    else .ok l

/-- Embeds the outer loop of `Lexer::skip_whitespace` (fuel-driven). -/
def skip_whitespace : Nat → Lexer → Res Lexer
  | 0, _ => .fuelOut
  | fuel + 1, l =>
    let c := peek l
    if c = '\t' ∨ c = ' ' ∨ c = '\r' then
      skip_whitespace fuel (advance l).2
    else if c = '/' then
      match peek_next l with
      | none => .panicked
      | some c2 =>
        if c2 = '/' then
          match comment_loop fuel l with
          | .ok l' => skip_whitespace fuel l'
          | .panicked => .panicked
          | .fuelOut => .fuelOut
        else .ok l
    else if c = '\n' then
      skip_whitespace fuel (advance { l with column := 0, row := l.row + 1 }).2
    else .ok l

/-- Embeds `Lexer::make_token`. -/
def make_token (l : Lexer) (kind : TokenKind) (start_row start_col : Nat) : Token :=
  { kind := kind, column := start_col, row := start_row, filename := l.filename }

/-- Embeds `Lexer::classify_ident`. -/
def classify_ident (ident : String) : TokenKind :=
  if ident = "start" then .start
  else if ident = "stop" then .stop
  else if ident = "string" then .str
  else if ident = "set" then .set
  else if ident = "mut" then .mut
  else if ident = "func" then .func
  else if ident = "proc" then .proc
  else if ident = "if" then .ifK
  else if ident = "true" then .trueK
  else if ident = "false" then .falseK
  else if ident = "else" then .elseK
  else if ident = "or" then .or
  else if ident = "and" then .and
  else if ident = "then" then .thenK
  else if ident = "end" then .endK
  else if ident = "int" then .int
  else if ident = "nat" then .nat
  else if ident = "bool" then .bool
  else if ident = "write" then .write
  else if ident = "return" then .ret
  else .ident ident

/-- Embeds the `while self.peek() != '"'` string-literal loop of
`Lexer::next_token` (fuel-driven); the accumulator mirrors the local
`string` buffer. -/
def string_loop : Nat → Lexer → List Char → Res (List Char × Lexer)
  | 0, _, _ => .fuelOut
  | fuel + 1, l, acc =>
    if peek l ≠ '"' then
      let (c, l') := advance l
      string_loop fuel l' (acc ++ [c])
    else .ok (acc, l)

/-- Embeds the `while self.peek().is_ascii_digit()` number loop of
`Lexer::next_token` (fuel-driven). -/
def number_loop : Nat → Lexer → List Char → Res (List Char × Lexer)
  | 0, _, _ => .fuelOut
  | fuel + 1, l, acc =>
    if (peek l).isDigit then
      let (c, l') := advance l
      number_loop fuel l' (acc ++ [c])
    else .ok (acc, l)

/-- Embeds the `while self.peek().is_alphanumeric() || self.peek() == '_'`
identifier loop of `Lexer::next_token` (fuel-driven). -/
def ident_loop : Nat → Lexer → List Char → Res (List Char × Lexer)
  | 0, _, _ => .fuelOut
  | fuel + 1, l, acc =>
    if (peek l).isAlphanum ∨ peek l = '_' then
      let (c, l') := advance l
      ident_loop fuel l' (acc ++ [c])
    else .ok (acc, l)

/-- Embeds `Lexer::next_token` (fuel-driven). -/
def next_token (fuel : Nat) (l0 : Lexer) : Res (Token × Lexer) := do
  let l1 ← skip_whitespace fuel l0
  let (c, l) := advance l1
  if c = ':' then
    if peek l = '=' then
      let l := (advance l).2
      pure (make_token l .walrus l.row l.column, l)
    else pure (make_token l .colon l.row l.column, l)
  else if c = ';' then pure (make_token l .semicolon l.row l.column, l)
  else if c = '/' then pure (make_token l .slash l.row l.column, l)
  else if c = '*' then pure (make_token l .star l.row l.column, l)
  else if c = '%' then pure (make_token l .percent l.row l.column, l)
  else if c = ',' then pure (make_token l .comma l.row l.column, l)
  else if c = '(' then pure (make_token l .lparen l.row l.column, l)
  else if c = ')' then pure (make_token l .rparen l.row l.column, l)
  else if c = '!' then
    if peek l = '=' then
      let l := (advance l).2
      pure (make_token l .notEqual l.row l.column, l)
    else pure (make_token l .not l.row l.column, l)
  else if c = '-' then pure (make_token l .minus l.row l.column, l)
  else if c = '+' then pure (make_token l .plus l.row l.column, l)
  else if c = '=' then
    if peek l = '=' then
      let l := (advance l).2
      pure (make_token l .equalEqual l.row l.column, l)
    else pure (make_token l .equal l.row l.column, l)
  else if c.isDigit then
    let start_row := l.row
    let start_col := l.column - 1
    let (num, l') ← number_loop fuel l [c]
    pure (make_token l' (.number (String.mk num)) start_row start_col, l')
  else if c.isAlpha ∨ c = '_' then
    let start_row := l.row
    let start_col := l.column
    let (id, l') ← ident_loop fuel l [c]
    pure (make_token l' (classify_ident (String.mk id)) start_row start_col, l')
  else if c = '\x00' then pure (make_token l .eof l.row l.column, l)
  else if c = '"' then
    let start_row := l.row
    let start_col := l.column - 1
    let (s, l') ← string_loop fuel l []
    let l'' := (advance l').2
    pure (make_token l'' (.string (String.mk s)) start_row start_col, l'')
  else pure (make_token l (.illegal c) l.row l.column, l)

/-- Embeds `impl Iterator for Lexer`: an `Eof` token ends the sequence. -/
def iter_next (fuel : Nat) (l : Lexer) : Res (Option (Token × Lexer)) := do
  let (t, l') ← next_token fuel l
  if t.kind = .eof then pure none else pure (some (t, l'))

end Lexer

/-! Parser data model (src/compiler/parser.rs)

`Op`, `Expr`, `Type` (here `Ty`, since `Type` is reserved in Lean),
`Param`, `Stmts`, `Position` and the generic positioned node `AstNode`
mirror the Rust definitions.  Rust constructor names that are Lean
keywords are renamed (`Variable` to `var`, `Return` to `ret`,
`If` to `ifS`, `Else` to `elseS`). -/

inductive Op where
  | equal | notEqual | or | add | minus | div | mult | mod | and
  deriving Repr, DecidableEq

/-- Embeds `Op::from` (panics on a non-operator token kind). -/
def Op.from : TokenKind → Res Op
  | .equalEqual => .ok .equal
  | .notEqual => .ok .notEqual
  | .or => .ok .or
  | .minus => .ok .minus
  | .plus => .ok .add
  | .star => .ok .mult
  | .slash => .ok .div
  | .and => .ok .and
  | .percent => .ok .mod
  | _ => .panicked

inductive Ty where
  | nat | string | int | bool | void | unknown
  deriving Repr, DecidableEq

structure Position where
  filename : String
  column : Nat
  row : Nat
  deriving Repr, DecidableEq

/-- Embeds `Position::from(&Token)`. -/
def Position.fromToken (t : Token) : Position :=
  { filename := t.filename, column := t.column, row := t.row }

structure AstNode (T : Type) where
  value : T
  position : Position
  deriving Repr, DecidableEq

inductive Expr where
  | number (n : Int)
  | string (s : String)
  | var (name : String)
  | bool (b : Bool)
  | subprogramCall (name : String) (args : List (AstNode Expr))
  | binary (op : Op) (lhs rhs : AstNode Expr)
  deriving Repr

structure Param where
  param_type : Ty
  name : String
  deriving Repr, DecidableEq

inductive Stmts where
  | write (type_ : Ty) (expr : AstNode Expr)
  | ret (return_type : Ty) (expr : AstNode Expr)
  | set (name : String) (var_type : Ty) (mutable : Bool) (expr : AstNode Expr)
  | assign (name : String) (expr : AstNode Expr)
  | subProgramDef (name : String) (return_type : Ty) (params : List Param)
      (stmts : List (AstNode Stmts))
  | ifS (expr : AstNode Expr) (stmts : List (AstNode Stmts))
  | elseS (stmts : List (AstNode Stmts))
  | subProgramCall (name : String) (args : List (AstNode Expr))
  deriving Repr

/-! Parser (src/compiler/parser.rs)

The parser owns a `Peekable<Lexer>`; the embedding abstracts that lazy
token stream as the list of tokens the lexer would yield (the iterator
ends, rather than yielding `Eof`, at end of input) together with the
`curr_token` field.  `compiler_error!` prints a positioned message and
terminates the process; that exit is the `PRes.exited` outcome.  Only the
expression-parsing cluster (`parse_expression`, its trailing binary-
operator loop, `parse_subprog_args`, `get_and_expect`) is embedded; no
claim depends on the statement parsers. -/

structure Parser where
  tokens : List Token
  curr_token : Option Token
  deriving Repr

/-- Result of running a parser action: success with the produced value and
the parser state, a `compiler_error!` process exit carrying the formatted
message, a panic, or fuel exhaustion. -/
inductive PRes (α : Type) where
  | ok : α → Parser → PRes α
  | exited : String → PRes α
  | panicked : PRes α
  | fuelOut : PRes α

/-- The text `compiler_error!` prints before exiting:
`file:row:col: error: msg` (with the ANSI color codes of the source). -/
def compiler_error (t : Token) (msg : String) : String :=
  t.filename ++ ":" ++ toString t.row ++ ":" ++ toString t.column ++
    ": \x1b[31merror:\x1b[0m " ++ msg

/-- Accumulates the numeric value of a digit string. -/
def digits_to_nat : Nat → List Char → Option Nat
  | acc, [] => some acc
  | acc, c :: rest =>
    if c.isDigit then digits_to_nat (acc * 10 + (c.toNat - 48)) rest else none

/-- Embeds `str::parse::<i128>` as used on the digit-only number
payloads: the numeric value when it fits in `i128`, `none` (a parse error)
on an empty or non-digit string or past `i128::MAX`. -/
def parse_i128 (s : String) : Option Int :=
  if s.toList.isEmpty then none
  else
    match digits_to_nat 0 s.toList with
    | some n =>
      if (n : Int) ≤ 170141183460469231731687303715884105727 then some (n : Int)
      else none
    | none => none

namespace Parser

/-- Embeds `Parser::get_and_expect`. -/
def get_and_expect (p : Parser) (kind : TokenKind) : PRes Unit :=
  match p.tokens with
  | token :: rest =>
    if token.kind ≠ kind then
      .exited (compiler_error token
        ("expected " ++ kind.display ++ " but found " ++ token.kind.display))
    else .ok () { tokens := rest, curr_token := some token }
  | [] =>
    match p.curr_token with
    | some ct => .exited (compiler_error ct
        ("expected " ++ kind.display ++ " but found eof"))
    | none => .panicked

/-- The token kinds accepted by the trailing binary-operator loop of
`Parser::parse_expression`. -/
def is_binary_op_token (k : TokenKind) : Bool :=
  k = .equal ∨ k = .equalEqual ∨ k = .notEqual ∨ k = .or ∨ k = .and ∨
    k = .plus ∨ k = .minus ∨ k = .star ∨ k = .slash ∨ k = .percent

mutual

/-- Embeds `Parser::parse_expression` (fuel-driven): parse a primary, then
run the trailing binary-operator loop `parse_expression_loop`. -/
def parse_expression : Nat → Parser → PRes (AstNode Expr)
  | 0, _ => .fuelOut
  | fuel + 1, p =>
    match p.tokens with
    | [] =>
      match p.curr_token with
      | some ct => .exited (compiler_error ct "expected expression but found none")
      | none => .panicked
    | token :: rest =>
      let p1 : Parser := { tokens := rest, curr_token := p.curr_token }
      match token.kind with
      | .number num =>
        match parse_i128 num with
        | some n =>
          parse_expression_loop fuel ⟨Expr.number n, Position.fromToken token⟩ p1
        | none =>
          .exited (compiler_error token
            ("could not parse " ++ token.kind.display ++ " as a  number"))
      | .string s =>
        parse_expression_loop fuel ⟨Expr.string s, Position.fromToken token⟩ p1
      | .trueK =>
        parse_expression_loop fuel ⟨Expr.bool true, Position.fromToken token⟩ p1
      | .falseK =>
        parse_expression_loop fuel ⟨Expr.bool false, Position.fromToken token⟩ p1
      | .ident name =>
        match rest.head? with
        | some t2 =>
          if t2.kind = .lparen then
            let position := Position.fromToken t2
            match get_and_expect p1 .lparen with
            | .ok () p2 =>
              match parse_subprog_args fuel [] p2 with
              | .ok args p3 =>
                match get_and_expect p3 .rparen with
                | .ok () p4 =>
                  parse_expression_loop fuel
                    ⟨Expr.subprogramCall name args, position⟩ p4
                | .exited m => .exited m
                | .panicked => .panicked
                | .fuelOut => .fuelOut
              | .exited m => .exited m
              | .panicked => .panicked
              | .fuelOut => .fuelOut
            | .exited m => .exited m
            | .panicked => .panicked
            | .fuelOut => .fuelOut
          else
            -- the Rust `else` arm reads the position from the shadowing
            -- binder of `self.lexer.peek()`, i.e. from the peeked token
            parse_expression_loop fuel ⟨Expr.var name, Position.fromToken t2⟩ p1
        | none =>
          parse_expression_loop fuel ⟨Expr.var name, Position.fromToken token⟩ p1
      | _ =>
        .exited (compiler_error token
          ("could not parse " ++ token.kind.display ++ " as an expression"))

/-- Embeds the `while let Some(token) = self.lexer.peek()` trailing
binary-operator loop of `Parser::parse_expression`: on an operator token,
consume it and greedily parse the entire remaining expression as the
right-hand side. -/
def parse_expression_loop : Nat → AstNode Expr → Parser → PRes (AstNode Expr)
  | 0, _, _ => .fuelOut
  | fuel + 1, lhs, p =>
    match p.tokens with
    | token :: rest =>
      if is_binary_op_token token.kind then
        let position := Position.fromToken token
        match Op.from token.kind with
        | .ok op =>
          match parse_expression fuel { tokens := rest, curr_token := p.curr_token } with
          | .ok rhs p' =>
            parse_expression_loop fuel ⟨Expr.binary op lhs rhs, position⟩ p'
          | .exited m => .exited m
          | .panicked => .panicked
          | .fuelOut => .fuelOut
        | .panicked => .panicked
        | .fuelOut => .fuelOut
      else .ok lhs p
    | [] => .ok lhs p

/-- Embeds `Parser::parse_subprog_args` (fuel-driven); the accumulator
mirrors the local `args` vector. -/
def parse_subprog_args : Nat → List (AstNode Expr) → Parser → PRes (List (AstNode Expr))
  | 0, _, _ => .fuelOut
  | fuel + 1, args, p =>
    match p.tokens.head? with
    | none => .ok args p
    | some token =>
      if token.kind = .rparen then .ok args p
      else if token.kind = .comma then
        match get_and_expect p .comma with
        | .ok () p' => parse_subprog_args fuel args p'
        | .exited m => .exited m
        | .panicked => .panicked
        | .fuelOut => .fuelOut
      else
        match parse_expression fuel p with
        | .ok e p' => parse_subprog_args fuel (args ++ [e]) p'
        | .exited m => .exited m
        | .panicked => .panicked
        | .fuelOut => .fuelOut

end

end Parser

/-! Semantic analyzer (src/compiler/semantic.rs)

`SubProgCtx`, `VarCtx`, `SemError` and the `SemanticAnalyzer` state mirror
the Rust structs; the two `HashMap`s are embedded as association lists
with map semantics (`hm_insert` replaces an existing binding).  Error
`push` appends at the end of the error vector.  `std::process::exit`
inside `analyze_ast` is captured by the `AnalyzeOutcome` type; `todo!()`,
out-of-bounds `Vec` indexing and `unwrap` on `None` are `Res.panicked`.
The `Stmts::While` arm of the Rust `analyze_stmt` matches a constructor
that does not exist in the `Stmts` enum of the parser, so it is uninhabited
and has no counterpart here. -/

structure SubProgCtx where
  param_types : List Ty
  return_type : Ty
  deriving Repr, DecidableEq

structure VarCtx where
  var_type : Ty
  mutable : Bool
  deriving Repr, DecidableEq

structure SemError where
  msg : String
  position : Position
  deriving Repr, DecidableEq

structure SemanticAnalyzer where
  is_subprogram : Bool
  expected_return_type : Ty
  subprogram_table : List (String × SubProgCtx)
  local_var_table : List (String × VarCtx)
  errors : List SemError
  deriving Repr, DecidableEq

/-- Embeds the derived `Debug` rendering of `Type` used in `format!("{:?}")`. -/
def Ty.debug : Ty → String
  | .nat => "Nat"
  | .string => "String"
  | .int => "Int"
  | .bool => "Bool"
  | .void => "Void"
  | .unknown => "Unknown"

/-- Embeds `HashMap::contains_key` on the association-list model. -/
def hm_contains {α : Type} (m : List (String × α)) (k : String) : Bool :=
  (m.lookup k).isSome

/-- Embeds `HashMap::get` on the association-list model. -/
def hm_get {α : Type} (m : List (String × α)) (k : String) : Option α :=
  m.lookup k

/-- Removes every binding of a key (helper of `hm_insert`). -/
def hm_remove {α : Type} (k : String) : List (String × α) → List (String × α)
  | [] => []
  | p :: t => if p.1 = k then hm_remove k t else p :: hm_remove k t

/-- Embeds `HashMap::insert` on the association-list model (replaces any
existing binding of the key). -/
def hm_insert {α : Type} (k : String) (v : α) (m : List (String × α)) :
    List (String × α) :=
  (k, v) :: hm_remove k m

namespace SemanticAnalyzer

/-- Embeds `SemanticAnalyzer::new`. -/
def new : SemanticAnalyzer :=
  { is_subprogram := false, expected_return_type := .unknown,
    subprogram_table := [], local_var_table := [], errors := [] }

/-- Embeds `self.errors.push(SemError { msg, position })`. -/
def push_error (st : SemanticAnalyzer) (msg : String) (position : Position) :
    SemanticAnalyzer :=
  { st with errors := st.errors ++ [{ msg := msg, position := position }] }

mutual

/-- Embeds `SemanticAnalyzer::analyze_expr` (fuel-driven). -/
def analyze_expr : Nat → SemanticAnalyzer → AstNode Expr → Ty →
    Res (SemanticAnalyzer × Ty)
  | 0, _, _, _ => .fuelOut
  | fuel + 1, st, expr, expected_type =>
    match expr.value with
    | .number num =>
      if expected_type = .unknown then
        if -2147483648 ≤ num ∧ num ≤ 2147483647 then .ok (st, .int)
        else if 0 ≤ num ∧ num ≤ 4294967295 then .ok (st, .nat)
        else .panicked
      else if expected_type = .int then
        if num < -2147483648 then
          .ok (push_error st
            "The number passed is too small to be represented by type int"
            expr.position, expected_type)
        else if num > 2147483647 then
          .ok (push_error st
            "The number passed is too large to be represented by type int"
            expr.position, expected_type)
        else .ok (st, expected_type)
      else if expected_type = .nat then
        if num < 0 then
          .ok (push_error st
            "The number passed is too small to be represented by type nat"
            expr.position, expected_type)
        else if num > 4294967295 then
          .ok (push_error st
            "The number passed is too large to be represented by type nat"
            expr.position, expected_type)
        else .ok (st, expected_type)
      else .panicked
    | .bool _ =>
      if expected_type = .bool ∨ expected_type = .unknown then .ok (st, .bool)
      else
        .ok (push_error st
          ("Expected type " ++ expected_type.debug ++ ", found boolean")
          expr.position, expected_type)
    | .string _ =>
      if expected_type = .string ∨ expected_type = .unknown then .ok (st, .string)
      else
        .ok (push_error st
          ("Expected type " ++ expected_type.debug ++ ", found string literal")
          expr.position, expected_type)
    | .var name =>
      if ¬ hm_contains st.local_var_table name then
        .ok (push_error st ("use of unknown variable " ++ name) expr.position,
          expected_type)
      else
        match hm_get st.local_var_table name with
        | some ctx => .ok (st, ctx.var_type)
        | none => .panicked
    | .subprogramCall name args =>
      if ¬ hm_contains st.subprogram_table name then
        .ok (push_error st ("subprogram " ++ name ++ " is not defined")
          expr.position, expected_type)
      else
        match hm_get st.subprogram_table name with
        | some ctx =>
          match analyze_call_args fuel st args ctx.param_types with
          | .ok st' =>
            match hm_get st'.subprogram_table name with
            | some ctx2 => .ok (st', ctx2.return_type)
            | none => .panicked
          | .panicked => .panicked
          | .fuelOut => .fuelOut
        | none => .panicked
    | .binary _ lhs rhs =>
      match analyze_expr fuel st lhs expected_type with
      | .ok (st1, lhs_type) =>
        match analyze_expr fuel st1 rhs expected_type with
        | .ok (st2, rhs_type) =>
          if rhs_type ≠ lhs_type then
            .ok (push_error st2
              ("type mismatch in binary expression lhs:" ++ lhs_type.debug ++
                " while rhs:" ++ rhs_type.debug) expr.position, lhs_type)
          else .ok (st2, lhs_type)
        | .panicked => .panicked
        | .fuelOut => .fuelOut
      | .panicked => .panicked
      | .fuelOut => .fuelOut

/-- Embeds the `for (i, arg) in args.iter().enumerate()` loops of the two
`SubprogramCall` arms: the i-th argument is checked against
`arg_types[i]`, and the `Vec` index panics when the argument list is
longer than the declared parameter list. -/
def analyze_call_args : Nat → SemanticAnalyzer → List (AstNode Expr) →
    List Ty → Res SemanticAnalyzer
  | 0, _, _, _ => .fuelOut
  | _ + 1, st, [], _ => .ok st
  | fuel + 1, st, arg :: rest_args, arg_types =>
    match arg_types with
    | [] => .panicked
    | t :: rest_types =>
      match analyze_expr fuel st arg t with
      | .ok (st', _) => analyze_call_args fuel st' rest_args rest_types
      | .panicked => .panicked
      | .fuelOut => .fuelOut

end

/-- Whether a statement node is a `Stmts::Return`, as tested by the
`matches!` in the subprogram-definition arm of `analyze_stmt`. -/
def is_return_stmt (n : AstNode Stmts) : Bool :=
  match n.value with
  | .ret _ _ => true
  | _ => false

/-- Embeds the parameter-insertion loop of the `SubProgramDef` arm of
`analyze_stmt` (`mutable: false` for every parameter). -/
def insert_params (m : List (String × VarCtx)) : List Param →
    List (String × VarCtx)
  | [] => m
  | p :: rest =>
    insert_params (hm_insert p.name { var_type := p.param_type, mutable := false } m)
      rest

mutual

/-- Embeds `SemanticAnalyzer::analyze_stmt` (fuel-driven).  The returned
node carries the type annotations the Rust code writes back through its
`&mut` borrow. -/
def analyze_stmt : Nat → SemanticAnalyzer → AstNode Stmts →
    Res (SemanticAnalyzer × AstNode Stmts)
  | 0, _, _ => .fuelOut
  | fuel + 1, st, node =>
    match node.value with
    | .write _ expr =>
      match analyze_expr fuel st expr .unknown with
      | .ok (st', gotten_type) =>
        .ok (st', ⟨.write gotten_type expr, node.position⟩)
      | .panicked => .panicked
      | .fuelOut => .fuelOut
    | .ret _ expr =>
      match analyze_expr fuel st expr .unknown with
      | .ok (st1, gotten_type) =>
        let st2 :=
          if gotten_type ≠ st1.expected_return_type then
            push_error st1
              ("Expected return type " ++ st1.expected_return_type.debug ++
                ", found " ++ gotten_type.debug) expr.position
          else st1
        .ok (st2, ⟨.ret gotten_type expr, node.position⟩)
      | .panicked => .panicked
      | .fuelOut => .fuelOut
    | .set name var_type mutable expr =>
      let st1 :=
        if hm_contains st.local_var_table name then
          push_error st ("redefinition of variable " ++ name) node.position
        else st
      match analyze_expr fuel st1 expr var_type with
      | .ok (st2, gotten_type) =>
        let st3 := { st2 with
          local_var_table :=
            hm_insert name { var_type := gotten_type, mutable := mutable }
              st2.local_var_table }
        .ok (st3, ⟨.set name gotten_type mutable expr, node.position⟩)
      | .panicked => .panicked
      | .fuelOut => .fuelOut
    | .assign name expr =>
      if ¬ hm_contains st.local_var_table name then
        .ok (push_error st
          ("trying to assing value to unexisting variable: " ++ name)
          node.position, node)
      else
        match hm_get st.local_var_table name with
        | some var_ctx =>
          if var_ctx.mutable then
            match analyze_expr fuel st expr var_ctx.var_type with
            | .ok (st', _) => .ok (st', node)
            | .panicked => .panicked
            | .fuelOut => .fuelOut
          else
            .ok (push_error st
              ("trying to assing value to immutable variable: " ++ name)
              node.position, node)
        | none => .panicked
    | .subProgramDef name return_type params stmts =>
      if st.is_subprogram then
        .ok (push_error st
          ("Cannot define subprogram " ++ name ++ " inside another subprogram")
          node.position, node)
      else
        let st1 := { st with is_subprogram := true,
                             expected_return_type := return_type }
        let st2 := { st1 with
          local_var_table := insert_params st1.local_var_table params }
        match analyze_body fuel st2 false stmts [] with
        | .ok (st3, return_stmt_exists, stmts') =>
          if ¬ return_stmt_exists ∧ st3.expected_return_type ≠ .void then
            .ok (push_error st3
              ("subprogram " ++ name ++ " does not have a return statement")
              node.position,
              ⟨.subProgramDef name return_type params stmts', node.position⟩)
          else
            .ok ({ st3 with local_var_table := [], is_subprogram := false },
              ⟨.subProgramDef name return_type params stmts', node.position⟩)
        | .panicked => .panicked
        | .fuelOut => .fuelOut
    | .subProgramCall name args =>
      if ¬ hm_contains st.subprogram_table name then
        .ok (push_error st ("subprogram " ++ name ++ " is not defined")
          node.position, node)
      else
        match hm_get st.subprogram_table name with
        | some ctx =>
          match analyze_call_args fuel st args ctx.param_types with
          | .ok st' =>
            match hm_get st'.subprogram_table name with
            | some ctx2 =>
              if ctx2.return_type ≠ .void then
                .ok (push_error st'
                  ("subprogram " ++ name ++ " returns a value which is not used")
                  node.position, node)
              else .ok (st', node)
            | none => .panicked
          | .panicked => .panicked
          | .fuelOut => .fuelOut
        | none => .panicked
    | .ifS expr stmts =>
      match analyze_expr fuel st expr .unknown with
      | .ok (st1, _) =>
        match analyze_stmt_list fuel st1 stmts [] with
        | .ok (st2, stmts') => .ok (st2, ⟨.ifS expr stmts', node.position⟩)
        | .panicked => .panicked
        | .fuelOut => .fuelOut
      | .panicked => .panicked
      | .fuelOut => .fuelOut
    | .elseS stmts =>
      match analyze_stmt_list fuel st stmts [] with
      | .ok (st1, stmts') => .ok (st1, ⟨.elseS stmts', node.position⟩)
      | .panicked => .panicked
      | .fuelOut => .fuelOut

/-- Embeds the plain `for stmt in stmts { self.analyze_stmt(stmt) }` loops
(`If`/`Else` bodies and the `analyze_ast` check pass); the accumulator
collects the written-back nodes. -/
def analyze_stmt_list : Nat → SemanticAnalyzer → List (AstNode Stmts) →
    List (AstNode Stmts) → Res (SemanticAnalyzer × List (AstNode Stmts))
  | 0, _, _, _ => .fuelOut
  | _ + 1, st, [], acc => .ok (st, acc)
  | fuel + 1, st, n :: rest, acc =>
    match analyze_stmt fuel st n with
    | .ok (st', n') => analyze_stmt_list fuel st' rest (acc ++ [n'])
    | .panicked => .panicked
    | .fuelOut => .fuelOut

/-- Embeds the subprogram-body loop of the `SubProgramDef` arm: analyzes
each statement while tracking the `return_stmt_exists` flag. -/
def analyze_body : Nat → SemanticAnalyzer → Bool → List (AstNode Stmts) →
    List (AstNode Stmts) → Res (SemanticAnalyzer × Bool × List (AstNode Stmts))
  | 0, _, _, _, _ => .fuelOut
  | _ + 1, st, flag, [], acc => .ok (st, flag, acc)
  | fuel + 1, st, flag, n :: rest, acc =>
    let flag' := if is_return_stmt n then true else flag
    match analyze_stmt fuel st n with
    | .ok (st', n') => analyze_body fuel st' flag' rest (acc ++ [n'])
    | .panicked => .panicked
    | .fuelOut => .fuelOut

end

/-- One iteration of the signature pre-pass of
`SemanticAnalyzer::analyze_ast`. -/
def signature_step (st : SemanticAnalyzer) (node : AstNode Stmts) :
    SemanticAnalyzer :=
  match node.value with
  | .subProgramDef name return_type params _ =>
    if hm_contains st.subprogram_table name then
      push_error st ("redefinition of function " ++ name) node.position
    else
      let st1 :=
        if name = "main" then
          let stA :=
            if return_type = .void then
              push_error st "main should be a function not a procedure"
                node.position
            else if return_type ≠ .int then
              push_error st "main function must have return type Int"
                node.position
            else st
          if params.length ≠ 0 then
            push_error stA "main function does not take any arguement"
              node.position
          else stA
        else st
      let ctx : SubProgCtx := ⟨params.map (fun p => p.param_type), return_type⟩
      { st1 with subprogram_table := hm_insert name ctx st1.subprogram_table }
  | _ => st

/-- The signature pre-pass of `SemanticAnalyzer::analyze_ast` (the first
`for` loop over the top-level statements). -/
def signature_pass : SemanticAnalyzer → List (AstNode Stmts) → SemanticAnalyzer
  | st, [] => st
  | st, node :: rest => signature_pass (signature_step st node) rest

end SemanticAnalyzer

/-- How `SemanticAnalyzer::analyze_ast` ends: a fatal
"main function not found" exit right after the signature pass, a fatal
exit after the check pass when errors accumulated, or success handing the
type-annotated tree onward. -/
inductive AnalyzeOutcome where
  | mainNotFound (errors : List SemError)
  | failed (errors : List SemError) (ast : List (AstNode Stmts))
  | success (ast : List (AstNode Stmts))

/-- Embeds `SemanticAnalyzer::analyze_ast` (fuel-driven): signature pass,
fatal missing-`main` check, check pass, then the batched error exit. -/
def analyze_ast (fuel : Nat) (ast : List (AstNode Stmts)) : Res AnalyzeOutcome :=
  let st := SemanticAnalyzer.signature_pass SemanticAnalyzer.new ast
  if ¬ hm_contains st.subprogram_table "main" then .ok (.mainNotFound st.errors)
  else
    match SemanticAnalyzer.analyze_stmt_list fuel st ast [] with
    | .ok (st', ast') =>
      if ¬ st'.errors.isEmpty then .ok (.failed st'.errors ast')
      else .ok (.success ast')
    | .panicked => .panicked
    | .fuelOut => .fuelOut

/-! IR generator (src/compiler/ir.rs)

`CType`, `CParam`, `CValue` and `Cir` mirror the Rust types (`Bool` to
`boolVal`, `If`/`Else` to `ifC`/`elseC`, keywords in Lean).
`CirGenerator` has no state, so its methods are plain functions;
`to_c_value` recursion over the nested AST and the statement-list loops
are fuel-driven.  `unreachable!()` in `to_c_type` and the `todo!()` in the
`SubProgramCall` arm of `generate_stmt_cir` are `Res.panicked`. -/

inductive CType where
  | int | uint | string | bool | void
  deriving Repr, DecidableEq

structure CParam where
  name : String
  param_type : CType
  deriving Repr, DecidableEq

/-- Embeds `impl fmt::Display for CType` (the `unt32_t` typo is in the source). -/
def CType.display : CType → String
  | .int => "int32_t"
  | .uint => "unt32_t"
  | .string => "string_t"
  | .bool => "bool"
  | .void => "void"

inductive CValue where
  | numLiteral (n : Int)
  | stringLiteral (s : String)
  | boolVal (b : Bool)
  | var (name : String)
  | binaryOp (lhs : CValue) (op : Op) (rhs : CValue)
  | subProgCall (name : String) (args : List CValue)
  deriving Repr

inductive Cir where
  | write (t : CType) (v : CValue)
  | ret (v : CValue)
  | subProgDef (name : String) (cparams : List CParam) (return_type : CType)
      (stmts_cir : List Cir)
  | ifC (v : CValue) (stmts : List Cir)
  | elseC (stmts : List Cir)
  | variableDef (name : String) (t : CType) (v : CValue) (mutable : Bool)
  | varAssign (name : String) (v : CValue)
  deriving Repr

namespace CirGenerator

/-- Embeds `CirGenerator::to_c_type`; `Type::Unknown` hits
`unreachable!()`. -/
def to_c_type : Ty → Res CType
  | .nat => .ok .uint
  | .string => .ok .string
  | .int => .ok .int
  | .bool => .ok .bool
  | .void => .ok .void
  | .unknown => .panicked

mutual

/-- Embeds `CirGenerator::to_c_value` (fuel-driven). -/
def to_c_value : Nat → Expr → Res CValue
  | 0, _ => .fuelOut
  | fuel + 1, e =>
    match e with
    | .string s => .ok (.stringLiteral s)
    | .number n => .ok (.numLiteral n)
    | .bool b => .ok (.boolVal b)
    | .binary op lhs rhs =>
      match to_c_value fuel lhs.value with
      | .ok l =>
        match to_c_value fuel rhs.value with
        | .ok r => .ok (.binaryOp l op r)
        | .panicked => .panicked
        | .fuelOut => .fuelOut
      | .panicked => .panicked
      | .fuelOut => .fuelOut
    | .var name => .ok (.var name)
    | .subprogramCall name args =>
      match to_c_value_args fuel args [] with
      | .ok cvalues => .ok (.subProgCall name cvalues)
      | .panicked => .panicked
      | .fuelOut => .fuelOut

/-- Embeds the `for arg in args` loop of the `SubprogramCall` arm of
`to_c_value`. -/
def to_c_value_args : Nat → List (AstNode Expr) → List CValue →
    Res (List CValue)
  | 0, _, _ => .fuelOut
  | _ + 1, [], acc => .ok acc
  | fuel + 1, arg :: rest, acc =>
    match to_c_value fuel arg.value with
    | .ok v => to_c_value_args fuel rest (acc ++ [v])
    | .panicked => .panicked
    | .fuelOut => .fuelOut

end

/-- Embeds the `for param in params` loop of the `SubProgramDef` arm of
`generate_stmt_cir`. -/
def to_c_params : List Param → List CParam → Res (List CParam)
  | [], acc => .ok acc
  | p :: rest, acc =>
    match to_c_type p.param_type with
    | .ok t => to_c_params rest (acc ++ [{ name := p.name, param_type := t }])
    | .panicked => .panicked
    | .fuelOut => .fuelOut

mutual

/-- Embeds `CirGenerator::generate_stmt_cir` (fuel-driven); the
`Stmts::SubProgramCall` arm is the `todo!()` of the source. -/
def generate_stmt_cir : Nat → AstNode Stmts → Res Cir
  | 0, _ => .fuelOut
  | fuel + 1, node =>
    match node.value with
    | .write type_ expr =>
      match to_c_value fuel expr.value with
      | .ok cvalue =>
        match to_c_type type_ with
        | .ok ctype => .ok (.write ctype cvalue)
        | .panicked => .panicked
        | .fuelOut => .fuelOut
      | .panicked => .panicked
      | .fuelOut => .fuelOut
    | .ret _ expr =>
      match to_c_value fuel expr.value with
      | .ok cvalue => .ok (.ret cvalue)
      | .panicked => .panicked
      | .fuelOut => .fuelOut
    | .subProgramDef name return_type params stmts =>
      match to_c_type return_type with
      | .ok rt =>
        match generate_stmt_cir_list fuel stmts [] with
        | .ok stmts_cir =>
          match to_c_params params [] with
          | .ok cparams => .ok (.subProgDef name cparams rt stmts_cir)
          | .panicked => .panicked
          | .fuelOut => .fuelOut
        | .panicked => .panicked
        | .fuelOut => .fuelOut
      | .panicked => .panicked
      | .fuelOut => .fuelOut
    | .ifS expr stmts =>
      match to_c_value fuel expr.value with
      | .ok cvalue =>
        match generate_stmt_cir_list fuel stmts [] with
        | .ok stmts_cir => .ok (.ifC cvalue stmts_cir)
        | .panicked => .panicked
        | .fuelOut => .fuelOut
      | .panicked => .panicked
      | .fuelOut => .fuelOut
    | .set name var_type mutable expr =>
      match to_c_value fuel expr.value with
      | .ok cvalue =>
        match to_c_type var_type with
        | .ok ctype => .ok (.variableDef name ctype cvalue mutable)
        | .panicked => .panicked
        | .fuelOut => .fuelOut
      | .panicked => .panicked
      | .fuelOut => .fuelOut
    | .assign name expr =>
      match to_c_value fuel expr.value with
      | .ok cvalue => .ok (.varAssign name cvalue)
      | .panicked => .panicked
      | .fuelOut => .fuelOut
    | .elseS stmts =>
      match generate_stmt_cir_list fuel stmts [] with
      | .ok stmts_cir => .ok (.elseC stmts_cir)
      | .panicked => .panicked
      | .fuelOut => .fuelOut
    | .subProgramCall _ _ => .panicked

/-- Embeds the `for stmt in stmts` lowering loops inside
`generate_stmt_cir` and `generate_cir`. -/
def generate_stmt_cir_list : Nat → List (AstNode Stmts) → List Cir →
    Res (List Cir)
  | 0, _, _ => .fuelOut
  | _ + 1, [], acc => .ok acc
  | fuel + 1, n :: rest, acc =>
    match generate_stmt_cir fuel n with
    | .ok c => generate_stmt_cir_list fuel rest (acc ++ [c])
    | .panicked => .panicked
    | .fuelOut => .fuelOut

end

/-- Embeds `CirGenerator::generate_cir`. -/
def generate_cir (fuel : Nat) (ast : List (AstNode Stmts)) : Res (List Cir) :=
  generate_stmt_cir_list fuel ast []

end CirGenerator

/-! Code generator (src/compiler/codegen.rs and the CValue Display impl
of src/compiler/ir.rs)

The text sink is a `String`; `write!`/`writeln!` append (the embedding's
sink cannot fail, so the only failures are the `unreachable!()` inside the
`CValue` renderer, reached through the format strings, and fuel).  Literal
braces emitted by the Rust `writeln!` templates appear here as the escapes
`\x7b` and `\x7d`. -/

/-- The operator token table of the non-string arm of
`impl fmt::Display for CValue`. -/
def binary_op_token : Op → String
  | .add => "+"
  | .minus => "-"
  | .mult => "*"
  | .div => "/"
  | .mod => "%"
  | .equal => "=="
  | .notEqual => "!="
  | .and => "&&"
  | .or => "||"

mutual

/-- Embeds `impl fmt::Display for CValue` (fuel-driven): a `BinaryOp`
whose left operand is a `StringLiteral` renders through the
`string_concat` runtime call when the operator is `Add` and hits
`unreachable!()` otherwise; every other left operand renders
`lhs op rhs` textually. -/
def cvalue_display : Nat → CValue → Res String
  | 0, _ => .fuelOut
  | fuel + 1, v =>
    match v with
    | .numLiteral n => .ok (toString n)
    | .stringLiteral s => .ok ("StrLit(\"" ++ s ++ "\")")
    | .var name => .ok name
    | .boolVal b => .ok (toString b)
    | .binaryOp lhs op rhs =>
      match lhs with
      | .stringLiteral _ =>
        match op with
        | .add =>
          match cvalue_display fuel lhs with
          | .ok l =>
            match cvalue_display fuel rhs with
            | .ok r => .ok ("string_concat(&gc, &" ++ l ++ ", &" ++ r ++ ")")
            | .panicked => .panicked
            | .fuelOut => .fuelOut
          | .panicked => .panicked
          | .fuelOut => .fuelOut
        | _ => .panicked
      | _ =>
        match cvalue_display fuel lhs with
        | .ok l =>
          match cvalue_display fuel rhs with
          | .ok r => .ok (l ++ " " ++ binary_op_token op ++ " " ++ r)
          | .panicked => .panicked
          | .fuelOut => .fuelOut
        | .panicked => .panicked
        | .fuelOut => .fuelOut
    | .subProgCall name args =>
      match cvalue_display_list fuel args [] with
      | .ok ss => .ok (name ++ "(" ++ String.intercalate ", " ss ++ ")")
      | .panicked => .panicked
      | .fuelOut => .fuelOut

/-- Embeds the `args.iter().map(|arg| arg.to_string())` rendering of
`SubProgCall` arguments. -/
def cvalue_display_list : Nat → List CValue → List String → Res (List String)
  | 0, _, _ => .fuelOut
  | _ + 1, [], acc => .ok acc
  | fuel + 1, v :: rest, acc =>
    match cvalue_display fuel v with
    | .ok s => cvalue_display_list fuel rest (acc ++ [s])
    | .panicked => .panicked
    | .fuelOut => .fuelOut

end

structure CodeGen where
  sink : String
  is_main : Bool
  deriving Repr, DecidableEq

namespace CodeGen

/-- Embeds `CodeGen::new`. -/
def new : CodeGen := { sink := "", is_main := false }

/-- Embeds a `write!(self.sink, ...)` append. -/
def wr (cg : CodeGen) (s : String) : CodeGen := { cg with sink := cg.sink ++ s }

/-- Embeds a `writeln!(self.sink, ...)` append. -/
def wrln (cg : CodeGen) (s : String) : CodeGen :=
  { cg with sink := cg.sink ++ s ++ "\n" }

/-- Embeds `CodeGen::generate_prelude`. -/
def generate_prelude (cg : CodeGen) : CodeGen :=
  wrln (wrln cg "#include <pseudo.h>") "static tgc_t gc;"

/-- Embeds `CodeGen::generate_write_stmt`: dispatches on the resolved
`CType` to pick the runtime print primitive; a `Void` value renders the
bare text `void` without selecting a primitive. -/
def generate_write_stmt (fuel : Nat) (cg : CodeGen) (ctype : CType)
    (cvalue : CValue) : Res CodeGen :=
  match ctype with
  | .int =>
    match cvalue_display fuel cvalue with
    | .ok s => .ok (wrln cg ("print_int(" ++ s ++ ")" ++ ";"))
    | .panicked => .panicked
    | .fuelOut => .fuelOut
  | .uint =>
    match cvalue_display fuel cvalue with
    | .ok s => .ok (wrln cg ("print_uint(" ++ s ++ ")" ++ ";"))
    | .panicked => .panicked
    | .fuelOut => .fuelOut
  | .string =>
    match cvalue_display fuel cvalue with
    | .ok s => .ok (wrln cg ("print_str(" ++ s ++ ")" ++ ";"))
    | .panicked => .panicked
    | .fuelOut => .fuelOut
  | .bool =>
    match cvalue_display fuel cvalue with
    | .ok s => .ok (wrln cg ("print_bool(" ++ s ++ ")" ++ ";"))
    | .panicked => .panicked
    | .fuelOut => .fuelOut
  | .void => .ok (wrln cg ("void" ++ ";"))

/-- Embeds `CodeGen::generate_return_stmt` (inside `main` a `tgc_stop`
call precedes the `return`). -/
def generate_return_stmt (fuel : Nat) (cg : CodeGen) (cvalue : CValue) :
    Res CodeGen :=
  let cg1 := if cg.is_main then wrln cg "tgc_stop(&gc);" else cg
  match cvalue_display fuel cvalue with
  | .ok s => .ok (wrln cg1 ("return " ++ s ++ ";"))
  | .panicked => .panicked
  | .fuelOut => .fuelOut

/-- Embeds `CodeGen::generate_varassign_stmt`. -/
def generate_varassign_stmt (fuel : Nat) (cg : CodeGen) (name : String)
    (expr : CValue) : Res CodeGen :=
  match cvalue_display fuel expr with
  | .ok s => .ok (wrln cg (name ++ " = " ++ s ++ ";"))
  | .panicked => .panicked
  | .fuelOut => .fuelOut

/-- Embeds `CodeGen::generate_set_stmt` (`const ` prefix when
immutable). -/
def generate_set_stmt (fuel : Nat) (cg : CodeGen) (name : String)
    (var_type : CType) (expr : CValue) (mutable : Bool) : Res CodeGen :=
  let cg1 := if ¬ mutable then wr cg "const " else cg
  match cvalue_display fuel expr with
  | .ok s =>
    .ok (wrln cg1 (var_type.display ++ " " ++ name ++ " = " ++ s ++ ";"))
  | .panicked => .panicked
  | .fuelOut => .fuelOut

mutual

/-- Embeds `CodeGen::generate_subprogdef_stmt`: sets the `is_main` flag,
emits the signature (`(int argc, char** argv)` for `main`, the rendered
parameter list otherwise), the `tgc_start` hook inside `main`, then the
body between braces. -/
def generate_subprogdef_stmt : Nat → CodeGen → String → List CParam →
    CType → List Cir → Res CodeGen
  | 0, _, _, _, _, _ => .fuelOut
  | fuel + 1, cg, name, cparams, return_type, stmts =>
    let cg1 := { cg with is_main := name = "main" }
    let cg2 := wr cg1 (return_type.display ++ " " ++ name)
    let cg3 :=
      if cg1.is_main then wr cg2 "(int argc, char** argv)"
      else
        wr cg2 ("(" ++
          String.intercalate ", "
            (cparams.map (fun p => p.param_type.display ++ " " ++ p.name)) ++ ")")
    let cg4 := wrln cg3 "\x7b"
    let cg5 := if cg1.is_main then wrln cg4 "tgc_start(&gc, &argc);" else cg4
    match generate_stmts fuel cg5 stmts with
    | .ok cg6 => .ok (wrln cg6 "\x7d")
    | .panicked => .panicked
    | .fuelOut => .fuelOut

/-- Embeds `CodeGen::generate_if_stmt`. -/
def generate_if_stmt : Nat → CodeGen → CValue → List Cir → Res CodeGen
  | 0, _, _, _ => .fuelOut
  | fuel + 1, cg, expr, stmts =>
    match cvalue_display fuel expr with
    | .ok s =>
      match generate_stmts fuel (wrln cg ("if (" ++ s ++ ") \x7b")) stmts with
      | .ok cg' => .ok (wrln cg' "\x7d")
      | .panicked => .panicked
      | .fuelOut => .fuelOut
    | .panicked => .panicked
    | .fuelOut => .fuelOut

/-- Embeds `CodeGen::generate_else_stmt` (closes the preceding block,
opens `else` — the source emits no closing brace of its own). -/
def generate_else_stmt : Nat → CodeGen → List Cir → Res CodeGen
  | 0, _, _ => .fuelOut
  | fuel + 1, cg, stmts =>
    generate_stmts fuel (wrln (wrln cg "\x7d") "else \x7b") stmts

/-- Embeds the dispatch loop `CodeGen::generate_stmts`. -/
def generate_stmts : Nat → CodeGen → List Cir → Res CodeGen
  | 0, _, _ => .fuelOut
  | _ + 1, cg, [] => .ok cg
  | fuel + 1, cg, stmt :: rest =>
    match stmt with
    | .write ctype cvalue =>
      match generate_write_stmt fuel cg ctype cvalue with
      | .ok cg' => generate_stmts fuel cg' rest
      | .panicked => .panicked
      | .fuelOut => .fuelOut
    | .ret cvalue =>
      match generate_return_stmt fuel cg cvalue with
      | .ok cg' => generate_stmts fuel cg' rest
      | .panicked => .panicked
      | .fuelOut => .fuelOut
    | .ifC cvalue stmts_cir =>
      match generate_if_stmt fuel cg cvalue stmts_cir with
      | .ok cg' => generate_stmts fuel cg' rest
      | .panicked => .panicked
      | .fuelOut => .fuelOut
    | .elseC stmts_cir =>
      match generate_else_stmt fuel cg stmts_cir with
      | .ok cg' => generate_stmts fuel cg' rest
      | .panicked => .panicked
      | .fuelOut => .fuelOut
    | .subProgDef name cparams return_type stmts_cir =>
      match generate_subprogdef_stmt fuel cg name cparams return_type stmts_cir with
      | .ok cg' => generate_stmts fuel cg' rest
      | .panicked => .panicked
      | .fuelOut => .fuelOut
    | .variableDef name var_type cvalue mutable =>
      match generate_set_stmt fuel cg name var_type cvalue mutable with
      | .ok cg' => generate_stmts fuel cg' rest
      | .panicked => .panicked
      | .fuelOut => .fuelOut
    | .varAssign name cvalue =>
      match generate_varassign_stmt fuel cg name cvalue with
      | .ok cg' => generate_stmts fuel cg' rest
      | .panicked => .panicked
      | .fuelOut => .fuelOut

end

/-- Embeds `CodeGen::generate_c_code`. -/
def generate_c_code (fuel : Nat) (ir : List Cir) : Res String :=
  match generate_stmts fuel (generate_prelude CodeGen.new) ir with
  | .ok cg => .ok cg.sink
  | .panicked => .panicked
  | .fuelOut => .fuelOut

end CodeGen

/-! Driver pipeline after parsing (src/src/main.rs)

After the parser produces the AST, `main` runs semantic analysis (whose
two fatal exits end the process before any C text exists), then IR
generation, then code generation, producing the generated C text. -/

inductive CompileFailure where
  | mainNotFoundExit
  | semanticErrorsExit
  deriving Repr, DecidableEq

/-- The pipeline from a parsed AST to generated C text: a semantic-analysis
exit produces a failure and no text. -/
def compile_after_parse (fuel : Nat) (ast : List (AstNode Stmts)) :
    Res (Except CompileFailure String) :=
  match analyze_ast fuel ast with
  | .ok (.mainNotFound _) => .ok (.error .mainNotFoundExit)
  | .ok (.failed _ _) => .ok (.error .semanticErrorsExit)
  | .ok (.success ast') =>
    match CirGenerator.generate_cir fuel ast' with
    | .ok ir =>
      match CodeGen.generate_c_code fuel ir with
      | .ok code => .ok (.ok code)
      | .panicked => .panicked
      | .fuelOut => .fuelOut
    | .panicked => .panicked
    | .fuelOut => .fuelOut
  | .panicked => .panicked
  | .fuelOut => .fuelOut

/-! Concrete programs, tokens and states used by the claim theorems -/

/-- A source position in the test file `t.pseudo`, row 1, column `c`. -/
def tpos (c : Nat) : Position := ⟨"t.pseudo", c, 1⟩

/-- A token of the test file `t.pseudo`, row 1, column `c`. -/
def tok (k : TokenKind) (c : Nat) : Token := ⟨k, "t.pseudo", c, 1⟩

/-- The token sequence the lexer yields for the expression `1 + 2 * 3`. -/
def c2_tokens : List Token :=
  [tok (.number "1") 0, tok .plus 2, tok (.number "2") 4, tok .star 6,
   tok (.number "3") 8]

/-- The parser state holding the `1 + 2 * 3` token sequence. -/
def c2_parse_state : Parser := ⟨c2_tokens, none⟩

/-- The tree `parse_expression` actually builds for `1 + 2 * 3`:
`1 + (2 * 3)`, an `Add` at the root whose right child is the entire
remaining expression `2 * 3`. -/
def c2_tree : AstNode Expr :=
  ⟨.binary .add ⟨.number 1, tpos 0⟩
    ⟨.binary .mult ⟨.number 2, tpos 4⟩ ⟨.number 3, tpos 8⟩, tpos 6⟩, tpos 2⟩

/-- The operator at the root of an expression, when the root is a binary
node. -/
def Expr.head_op : Expr → Option Op
  | .binary op _ _ => some op
  | _ => none

/-- Analyzer state in which the subprogram table registers
`proc f(x: int)` (one `Int` parameter, `Void` return). -/
def st_f : SemanticAnalyzer :=
  { SemanticAnalyzer.new with subprogram_table := [("f", ⟨[.int], .void⟩)] }

/-- The literal argument `1`. -/
def arg1 : AstNode Expr := ⟨.number 1, tpos 4⟩

/-- The literal argument `2`. -/
def arg2 : AstNode Expr := ⟨.number 2, tpos 6⟩

/-- The call expression `f(1, 2)` — two arguments against the single
declared parameter of `f`. -/
def call_expr_2 : AstNode Expr := ⟨.subprogramCall "f" [arg1, arg2], tpos 0⟩

/-- The call statement `f(1, 2);`. -/
def call_stmt_2 : AstNode Stmts := ⟨.subProgramCall "f" [arg1, arg2], tpos 0⟩

/-- The call statement `f();` — fewer arguments than declared parameters. -/
def call_stmt_0 : AstNode Stmts := ⟨.subProgramCall "f" [], tpos 0⟩

/-- `func f(x: int): int start stop` — a non-`Void` function whose body
contains no `Return` statement. -/
def fdef : AstNode Stmts :=
  ⟨.subProgramDef "f" .int [⟨.int, "x"⟩] [], tpos 0⟩

/-- The analyzer state after `analyze_stmt` finishes `fdef`: the
missing-return error was recorded, and the early `return` skipped both
`local_var_table.clear()` and the `is_subprogram` reset, so the parameter
`x` is still in the table. -/
def c6_state : SemanticAnalyzer :=
  { is_subprogram := true, expected_return_type := .int,
    subprogram_table := [],
    local_var_table := [("x", ⟨.int, false⟩)],
    errors := [⟨"subprogram f does not have a return statement", tpos 0⟩] }

/-- `func h(x: int): int start return 0; stop` — a function whose body
does contain a `Return` statement. -/
def hdef : AstNode Stmts :=
  ⟨.subProgramDef "h" .int [⟨.int, "x"⟩]
    [⟨.ret .unknown ⟨.number 0, tpos 1⟩, tpos 1⟩], tpos 0⟩

/-- `func main(): int start return 0; stop`. -/
def main_def : AstNode Stmts :=
  ⟨.subProgramDef "main" .int []
    [⟨.ret .unknown ⟨.number 0, tpos 1⟩, tpos 1⟩], tpos 9⟩

/-- `func f(): int start stop` — non-`Void`, zero `Return` statements. -/
def f_noret : AstNode Stmts := ⟨.subProgramDef "f" .int [] [], tpos 0⟩

/-- `proc p() start stop` — `Void`, zero `Return` statements. -/
def p_noret : AstNode Stmts := ⟨.subProgramDef "p" .void [] [], tpos 0⟩

/-- `func foo(): int start return 0; stop` — a well-formed subprogram that
is not named `main`. -/
def foo_def : AstNode Stmts :=
  ⟨.subProgramDef "foo" .int []
    [⟨.ret .unknown ⟨.number 0, tpos 1⟩, tpos 1⟩], tpos 0⟩

/-- `proc f() start stop`, callable as a statement. -/
def pdefC : AstNode Stmts := ⟨.subProgramDef "f" .void [] [], tpos 0⟩

/-- `func main(): int start f(); return 0; stop` — `main` whose body uses
the procedure call `f();` as a statement. -/
def mainC : AstNode Stmts :=
  ⟨.subProgramDef "main" .int []
    [⟨.subProgramCall "f" [], tpos 2⟩,
     ⟨.ret .unknown ⟨.number 0, tpos 3⟩, tpos 3⟩], tpos 1⟩

/-- Analyzer state that declares the immutable local `s` of type
`String` (as after `set s := "a";`). -/
def st_s : SemanticAnalyzer :=
  { SemanticAnalyzer.new with local_var_table := [("s", ⟨.string, false⟩)] }

/-- The expression `s + "b"`: a binary `+` whose left operand is the
String-typed variable `s` (not a string literal). -/
def svar_plus_lit : AstNode Expr :=
  ⟨.binary .add ⟨.var "s", tpos 0⟩ ⟨.string "b", tpos 4⟩, tpos 2⟩

/-- Whether a `CValue` is a `StringLiteral` — the property the
`Display` implementation actually dispatches on. -/
def is_string_literal : CValue → Bool
  | .stringLiteral _ => true
  | _ => false

/-- The format-string template `string_concat(&gc, &{lhs}, &{rhs})` of
the string-concatenation arm of the `CValue` renderer. -/
def string_concat_render (l r : String) : String :=
  "string_concat(&gc, &" ++ l ++ ", &" ++ r ++ ")"

/-- The format-string template `StrLit("{s}")` of the `StringLiteral` arm
of the `CValue` renderer. -/
def strlit_render (s : String) : String :=
  "StrLit(\"" ++ s ++ "\")"

/-- Whether a top-level statement node is a subprogram definition named
`main`. -/
def is_main_def (n : AstNode Stmts) : Bool :=
  match n.value with
  | .subProgramDef name _ _ _ => name = "main"
  | _ => false

/-- State extension: `st\'` differs from `st` only by appended errors
(how expression checking evolves the analyzer state). -/
def errors_ext (st st' : SemanticAnalyzer) : Prop :=
  ∃ es, st' = { st with errors := st.errors ++ es }

/-- State evolution across statements inside a subprogram body: the
`is_subprogram` flag and the expected return type survive, and errors
only grow. -/
def sem_ext (st st' : SemanticAnalyzer) : Prop :=
  st'.is_subprogram = st.is_subprogram ∧
  st'.expected_return_type = st.expected_return_type ∧
  ∃ es, st'.errors = st.errors ++ es

/-- The result of analyzing `hdef` (a function whose body returns): the
local variable table is cleared and the flag reset. -/
def hdef_result : SemanticAnalyzer × AstNode Stmts :=
  (⟨false, .int, [], [], []⟩,
   ⟨.subProgramDef "h" .int [⟨.int, "x"⟩]
      [⟨.ret .int ⟨.number 0, tpos 1⟩, tpos 1⟩], tpos 0⟩)

/-- The result of analyzing `f_noret`: the missing-return error is
recorded (and the early return leaves `is_subprogram` set). -/
def c7_result : SemanticAnalyzer × AstNode Stmts :=
  (⟨true, .int, [], [],
    [⟨"subprogram f does not have a return statement", tpos 0⟩]⟩, f_noret)

/-! Claim theorems -/

/-- C1: the IR lowering is not total on the fully-typed AST: the program
`proc f() start stop  func main(): int start f(); return 0; stop` passes
semantic analysis, yet `generate_stmt_cir` on the call-used-as-a-statement
node `f();` hits the `todo!()` panic, and the whole pipeline aborts on
this valid program instead of producing C text. -/
theorem c1_call_stmt_lowering_panics :
    CirGenerator.generate_stmt_cir 9 ⟨Stmts.subProgramCall "f" [], tpos 2⟩ =
      Res.panicked ∧
    (∃ ast', analyze_ast 20 [pdefC, mainC] = Res.ok (AnalyzeOutcome.success ast')) ∧
    compile_after_parse 20 [pdefC, mainC] = Res.panicked :=
  ⟨rfl, ⟨_, rfl⟩, rfl⟩

/-- C2 counterexample: parsing `1 + 2 * 3` yields a tree whose root
operator is `Add`, not the `Mult`-rooted tree `(1 + 2) * 3` the claim
states. -/
theorem c2_counterexample :
    Parser.parse_expression 9 c2_parse_state = PRes.ok c2_tree ⟨[], none⟩ ∧
    Expr.head_op c2_tree.value = some Op.add ∧
    some Op.add ≠ some Op.mult :=
  ⟨rfl, rfl, by decide⟩

/-- C2 amended: under the flat right-recursive grammar, `1 + 2 * 3`
parses as `1 + (2 * 3)` — a Binary node whose operator is `Add`, whose
left child is the literal `1`, and whose right child is the Binary node
`(2 Mult 3)` — because the trailing-operator loop parses the entire
remaining expression as the right-hand side. -/
theorem c2_parses_right_associative :
    Parser.parse_expression 9 c2_parse_state = PRes.ok c2_tree ⟨[], none⟩ := rfl

/-- C5: with `proc f(x: int)` registered, checking the call `f(1, 2)` —
more arguments than declared parameters — panics on the out-of-bounds
`arg_types[i]` index both as an expression and as a statement, instead of
bounding validation by the shorter list; the call `f()` with fewer
arguments than parameters does complete without error. -/
theorem c5_extra_args_index_panics :
    SemanticAnalyzer.analyze_expr 9 st_f call_expr_2 Ty.unknown = Res.panicked ∧
    SemanticAnalyzer.analyze_stmt 9 st_f call_stmt_2 = Res.panicked ∧
    SemanticAnalyzer.analyze_stmt 9 st_f call_stmt_0 = Res.ok (st_f, call_stmt_0) :=
  ⟨rfl, rfl, rfl⟩

/-- C10: tokenizing the one-character input `/` reads the character
buffer out of bounds: the guard of `peek_next` checks `read_pos >= len` but
its body indexes `source[read_pos + 1]`, so `skip_whitespace` (and hence
`next_token`) panics on an input whose final character is `/`. -/
theorem c10_peek_next_out_of_bounds :
    Lexer.peek_next (Lexer.new "t.pseudo" "/") = none ∧
    Lexer.skip_whitespace 9 (Lexer.new "t.pseudo" "/") = Res.panicked ∧
    Lexer.next_token 9 (Lexer.new "t.pseudo" "/") = Res.panicked :=
  ⟨rfl, rfl, rfl⟩

/-- C3: checking a `NumberLiteral`: with expected type `Unknown`, any
value in signed 32-bit range resolves to `Int` and any value outside that
range but in unsigned 32-bit range resolves to `Nat`, with no error and
no state change; with expected type `Int` or `Nat` and the value out of
the range of that type, exactly the matching range error is recorded, the
resolved type is the expected type, and the check returns normally
(error recovery, not abort). -/
theorem c3_number_literal_policy (fuel : Nat) (st : SemanticAnalyzer)
    (pos : Position) (n : Int) :
    ((-2147483648 ≤ n ∧ n ≤ 2147483647) →
      SemanticAnalyzer.analyze_expr (fuel + 1) st ⟨Expr.number n, pos⟩ Ty.unknown =
        Res.ok (st, Ty.int)) ∧
    ((¬ (-2147483648 ≤ n ∧ n ≤ 2147483647)) → 0 ≤ n → n ≤ 4294967295 →
      SemanticAnalyzer.analyze_expr (fuel + 1) st ⟨Expr.number n, pos⟩ Ty.unknown =
        Res.ok (st, Ty.nat)) ∧
    (2147483647 < n →
      SemanticAnalyzer.analyze_expr (fuel + 1) st ⟨Expr.number n, pos⟩ Ty.int =
        Res.ok (SemanticAnalyzer.push_error st
          "The number passed is too large to be represented by type int" pos,
          Ty.int)) ∧
    (n < -2147483648 →
      SemanticAnalyzer.analyze_expr (fuel + 1) st ⟨Expr.number n, pos⟩ Ty.int =
        Res.ok (SemanticAnalyzer.push_error st
          "The number passed is too small to be represented by type int" pos,
          Ty.int)) ∧
    (4294967295 < n →
      SemanticAnalyzer.analyze_expr (fuel + 1) st ⟨Expr.number n, pos⟩ Ty.nat =
        Res.ok (SemanticAnalyzer.push_error st
          "The number passed is too large to be represented by type nat" pos,
          Ty.nat)) ∧
    (n < 0 →
      SemanticAnalyzer.analyze_expr (fuel + 1) st ⟨Expr.number n, pos⟩ Ty.nat =
        Res.ok (SemanticAnalyzer.push_error st
          "The number passed is too small to be represented by type nat" pos,
          Ty.nat)) := by
  refine ⟨?_, ?_, ?_, ?_, ?_, ?_⟩
  · intro h
    simp only [SemanticAnalyzer.analyze_expr]
    simp [h]
  · intro h1 h2 h3
    simp only [SemanticAnalyzer.analyze_expr]
    simp [h1, h2, h3]
  · intro h
    have h1 : ¬ n < -2147483648 := by omega
    have h2 : n > 2147483647 := h
    simp only [SemanticAnalyzer.analyze_expr]
    simp [h1, h2]
  · intro h
    simp only [SemanticAnalyzer.analyze_expr]
    simp [h]
  · intro h
    have h1 : ¬ n < 0 := by omega
    have h2 : n > 4294967295 := h
    simp only [SemanticAnalyzer.analyze_expr]
    simp [h1, h2]
  · intro h
    simp only [SemanticAnalyzer.analyze_expr]
    simp [h]

/-- Witness for C3 at the literals named by the claim: `2147483647` with expected
type Unknown resolves to `Int`, `2147483648` resolves to `Nat`, and
`2147483648` against expected type `Int` records the too-large error while
resolving to `Int`. -/
theorem c3_number_literal_policy_witness :
    SemanticAnalyzer.analyze_expr 1 SemanticAnalyzer.new
      ⟨Expr.number 2147483647, tpos 0⟩ Ty.unknown =
      Res.ok (SemanticAnalyzer.new, Ty.int) ∧
    SemanticAnalyzer.analyze_expr 1 SemanticAnalyzer.new
      ⟨Expr.number 2147483648, tpos 0⟩ Ty.unknown =
      Res.ok (SemanticAnalyzer.new, Ty.nat) ∧
    SemanticAnalyzer.analyze_expr 1 SemanticAnalyzer.new
      ⟨Expr.number 2147483648, tpos 0⟩ Ty.int =
      Res.ok (SemanticAnalyzer.push_error SemanticAnalyzer.new
        "The number passed is too large to be represented by type int" (tpos 0),
        Ty.int) :=
  ⟨(c3_number_literal_policy 0 SemanticAnalyzer.new (tpos 0) 2147483647).1
      (by decide),
   (c3_number_literal_policy 0 SemanticAnalyzer.new (tpos 0) 2147483648).2.1
      (by decide) (by decide) (by decide),
   (c3_number_literal_policy 0 SemanticAnalyzer.new (tpos 0) 2147483648).2.2.1
      (by decide)⟩

/-- C8 counterexample: the concatenation dispatch keys on the left operand
being a string *literal*, not on its being of String *type*.  With the
local `s` declared as a `String`, the analyzer types `s` and `s + "b"` as
`String`, yet the rendered write statement for `s + "b"` is
`print_str(s + StrLit("b"));` — a textual `+` between two String-typed
values and no call to the concatenation primitive. -/
theorem c8_counterexample :
    SemanticAnalyzer.analyze_expr 9 st_s ⟨Expr.var "s", tpos 0⟩ Ty.unknown =
      Res.ok (st_s, Ty.string) ∧
    SemanticAnalyzer.analyze_expr 9 st_s svar_plus_lit Ty.unknown =
      Res.ok (st_s, Ty.string) ∧
    CirGenerator.to_c_value 9 svar_plus_lit.value =
      Res.ok (CValue.binaryOp (CValue.var "s") Op.add (CValue.stringLiteral "b")) ∧
    CodeGen.generate_write_stmt 9 CodeGen.new CType.string
      (CValue.binaryOp (CValue.var "s") Op.add (CValue.stringLiteral "b")) =
      Res.ok ⟨"print_str(s + StrLit(\"b\"));\n", false⟩ ∧
    ¬ ("string_concat".toList <:+: "print_str(s + StrLit(\"b\"));\n".toList) ∧
    '+' ∈ "print_str(s + StrLit(\"b\"));\n".toList :=
  ⟨rfl, rfl, rfl, rfl, by decide, by decide⟩

/-- C8 amended: when the left operand of a binary `+` is a string
*literal*, the rendering is the `string_concat` runtime call applied to
the two rendered operands; a binary whose left operand is not a string
literal (whatever its type) renders as the textual `lhs op rhs` with the
1:1 operator token; `write("a" + "b")` renders
`print_str(string_concat(&gc, &StrLit("a"), &StrLit("b")));`. -/
theorem c8_string_concat_on_literal_lhs :
    (∀ (fuel : Nat) (a b : String),
      cvalue_display (fuel + 2)
        (CValue.binaryOp (CValue.stringLiteral a) Op.add (CValue.stringLiteral b)) =
        Res.ok (string_concat_render (strlit_render a) (strlit_render b))) ∧
    (∀ (fuel : Nat) (lhs rhs : CValue) (op : Op) (sl sr : String),
      is_string_literal lhs = false →
      cvalue_display (fuel + 1) lhs = Res.ok sl →
      cvalue_display (fuel + 1) rhs = Res.ok sr →
      cvalue_display (fuel + 2) (CValue.binaryOp lhs op rhs) =
        Res.ok (sl ++ " " ++ binary_op_token op ++ " " ++ sr)) ∧
    CodeGen.generate_write_stmt 9 CodeGen.new CType.string
      (CValue.binaryOp (CValue.stringLiteral "a") Op.add (CValue.stringLiteral "b")) =
      Res.ok ⟨"print_str(string_concat(&gc, &StrLit(\"a\"), &StrLit(\"b\")));\n",
        false⟩ := by
  refine ⟨?_, ?_, rfl⟩
  · intro fuel a b
    simp only [cvalue_display, string_concat_render, strlit_render]
  · intro fuel lhs rhs op sl sr h0 h1 h2
    cases lhs <;> simp_all [cvalue_display, is_string_literal]

/-- Witness for the amended C8: the non-literal left operand `x` with
operator `*` renders textually. -/
theorem c8_string_concat_on_literal_lhs_witness :
    cvalue_display 2 (CValue.binaryOp (CValue.var "x") Op.mult (CValue.var "y")) =
      Res.ok ("x" ++ " " ++ binary_op_token Op.mult ++ " " ++ "y") :=
  c8_string_concat_on_literal_lhs.2.1 0 (CValue.var "x") (CValue.var "y")
    Op.mult "x" "y" rfl rfl rfl

/-- Removing the bindings of one key does not change lookup of a
different key. -/
theorem lookup_remove_other {α : Type} (m : List (String × α)) (k name : String)
    (h : k ≠ name) :
    (hm_remove name m).lookup k = m.lookup k := by
  induction m with
  | nil => rfl
  | cons p t ih =>
    obtain ⟨a, v⟩ := p
    by_cases hp : a = name
    · have h2 : (k == a) = false := by
        subst hp
        exact beq_eq_false_iff_ne.mpr h
      have h3 : (k == name) = false := beq_eq_false_iff_ne.mpr h
      simp [hm_remove, List.lookup, hp, h2, h3, ih]
    · simp [hm_remove, List.lookup, hp, ih]

/-- `hm_insert` of one key does not change membership of a different
key. -/
theorem hm_contains_insert_other {α : Type} (m : List (String × α))
    (name k : String) (v : α) (h : k ≠ name) :
    hm_contains (hm_insert name v m) k = hm_contains m k := by
  have hk : (k == name) = false := by simp [h]
  simp [hm_contains, hm_insert, List.lookup, hk, lookup_remove_other m k name h]

/-- One signature-pass step over a node that is not a `main` definition
cannot put `main` into the subprogram table. -/
theorem signature_step_no_main (st : SemanticAnalyzer) (node : AstNode Stmts)
    (hn : is_main_def node = false)
    (h0 : hm_contains st.subprogram_table "main" = false) :
    hm_contains (SemanticAnalyzer.signature_step st node).subprogram_table
      "main" = false := by
  unfold SemanticAnalyzer.signature_step
  cases hv : node.value with
  | subProgramDef name return_type params stmts =>
    have hname : ¬ name = "main" := by
      simp only [is_main_def, hv] at hn
      simpa using hn
    by_cases hc : hm_contains st.subprogram_table name = true
    · simp only [hc, if_true, SemanticAnalyzer.push_error]
      exact h0
    · simp only [hc, if_false, Bool.false_eq_true]
      rw [if_neg hname]
      rw [hm_contains_insert_other _ _ _ _ (fun hh => hname hh.symm)]
      exact h0
  | write t e => exact h0
  | ret t e => exact h0
  | set a b c d => exact h0
  | assign a b => exact h0
  | ifS a b => exact h0
  | elseS a => exact h0
  | subProgramCall a b => exact h0

/-- The signature pass cannot put `main` into the subprogram table when no
top-level definition is named `main`. -/
theorem signature_pass_no_main (ast : List (AstNode Stmts)) :
    ∀ st : SemanticAnalyzer, (∀ n ∈ ast, is_main_def n = false) →
    hm_contains st.subprogram_table "main" = false →
    hm_contains (SemanticAnalyzer.signature_pass st ast).subprogram_table
      "main" = false := by
  induction ast with
  | nil => intro st _ h0; exact h0
  | cons node rest ih =>
    intro st h h0
    have hn : is_main_def node = false := h node (List.mem_cons_self node rest)
    have hrest : ∀ n ∈ rest, is_main_def n = false := fun n hm =>
      h n (List.mem_cons_of_mem node hm)
    exact ih _ hrest (signature_step_no_main st node hn h0)

/-- C4: for every program whose top-level statements include no subprogram
definition named `main`, `analyze_ast` ends with the fatal
"main function not found" exit carrying only the signature-pass errors —
for every fuel amount, so the check pass is never consulted — and the
pipeline produces a failure with no generated C text. -/
theorem c4_missing_main_is_fatal (fuel : Nat) (ast : List (AstNode Stmts))
    (h : ∀ n ∈ ast, is_main_def n = false) :
    analyze_ast fuel ast =
      Res.ok (AnalyzeOutcome.mainNotFound
        (SemanticAnalyzer.signature_pass SemanticAnalyzer.new ast).errors) ∧
    compile_after_parse fuel ast =
      Res.ok (Except.error CompileFailure.mainNotFoundExit) := by
  have hc : hm_contains
      (SemanticAnalyzer.signature_pass SemanticAnalyzer.new ast).subprogram_table
      "main" = false :=
    signature_pass_no_main ast SemanticAnalyzer.new h rfl
  constructor
  · simp [analyze_ast, hc]
  · simp [compile_after_parse, analyze_ast, hc]

/-- Witness for C4: the one-subprogram program `func foo(): int ...` has
no `main`, analysis exits with the missing-`main` diagnostic, and the
pipeline yields no C text. -/
theorem c4_missing_main_is_fatal_witness :
    (∀ n ∈ [foo_def], is_main_def n = false) ∧
    analyze_ast 20 [foo_def] =
      Res.ok (AnalyzeOutcome.mainNotFound
        (SemanticAnalyzer.signature_pass SemanticAnalyzer.new [foo_def]).errors) ∧
    compile_after_parse 20 [foo_def] =
      Res.ok (Except.error CompileFailure.mainNotFoundExit) :=
  ⟨by decide, (c4_missing_main_is_fatal 20 [foo_def] (by decide)).1,
   (c4_missing_main_is_fatal 20 [foo_def] (by decide)).2⟩

theorem errors_ext_refl (st : SemanticAnalyzer) : errors_ext st st :=
  ⟨[], by simp⟩

theorem errors_ext_push (st : SemanticAnalyzer) (m : String) (p : Position) :
    errors_ext st (SemanticAnalyzer.push_error st m p) := ⟨[⟨m, p⟩], rfl⟩

theorem errors_ext_trans {s1 s2 s3 : SemanticAnalyzer}
    (h1 : errors_ext s1 s2) (h2 : errors_ext s2 s3) : errors_ext s1 s3 := by
  obtain ⟨a, ha⟩ := h1
  obtain ⟨b, hb⟩ := h2
  refine ⟨a ++ b, ?_⟩
  rw [hb, ha]
  simp

theorem sem_ext_refl (st : SemanticAnalyzer) : sem_ext st st :=
  ⟨rfl, rfl, [], by simp⟩

theorem sem_ext_trans {s1 s2 s3 : SemanticAnalyzer}
    (h1 : sem_ext s1 s2) (h2 : sem_ext s2 s3) : sem_ext s1 s3 := by
  obtain ⟨i1, e1, a, ha⟩ := h1
  obtain ⟨i2, e2, b, hb⟩ := h2
  exact ⟨i2.trans i1, e2.trans e1, a ++ b, by rw [hb, ha]; simp⟩

theorem sem_ext_of_errors_ext {st st' : SemanticAnalyzer}
    (h : errors_ext st st') : sem_ext st st' := by
  obtain ⟨es, rfl⟩ := h
  exact ⟨rfl, rfl, es, rfl⟩

theorem sem_ext_push (st : SemanticAnalyzer) (m : String) (p : Position) :
    sem_ext st (SemanticAnalyzer.push_error st m p) := ⟨rfl, rfl, [⟨m, p⟩], rfl⟩

theorem sem_ext_table (st : SemanticAnalyzer) (x : List (String × VarCtx)) :
    sem_ext st { st with local_var_table := x } := ⟨rfl, rfl, [], by simp⟩

/-- Expression checking only appends errors: every other analyzer field is
unchanged (proved jointly with the argument loop, by fuel induction). -/
theorem analyze_expr_errors_ext :
    ∀ fuel : Nat,
      (∀ (st : SemanticAnalyzer) (e : AstNode Expr) (t : Ty)
          (st' : SemanticAnalyzer) (ty : Ty),
        SemanticAnalyzer.analyze_expr fuel st e t = Res.ok (st', ty) →
        errors_ext st st') ∧
      (∀ (st : SemanticAnalyzer) (args : List (AstNode Expr)) (tys : List Ty)
          (st' : SemanticAnalyzer),
        SemanticAnalyzer.analyze_call_args fuel st args tys = Res.ok st' →
        errors_ext st st') := by
  intro fuel
  induction fuel with
  | zero =>
    constructor
    · intro st e t st' ty h
      exact absurd h (by simp [SemanticAnalyzer.analyze_expr])
    · intro st args tys st' h
      exact absurd h (by simp [SemanticAnalyzer.analyze_call_args])
  | succ fuel ih =>
    obtain ⟨ih1, ih2⟩ := ih
    constructor
    · intro st e t st' ty h
      obtain ⟨v, pos⟩ := e
      cases v with
      | number n =>
        simp only [SemanticAnalyzer.analyze_expr] at h
        split_ifs at h
        all_goals
          (cases h <;> first | exact errors_ext_refl _ | exact errors_ext_push _ _ _)
      | bool b =>
        simp only [SemanticAnalyzer.analyze_expr] at h
        split_ifs at h
        all_goals
          (cases h <;> first | exact errors_ext_refl _ | exact errors_ext_push _ _ _)
      | string s =>
        simp only [SemanticAnalyzer.analyze_expr] at h
        split_ifs at h
        all_goals
          (cases h <;> first | exact errors_ext_refl _ | exact errors_ext_push _ _ _)
      | var name =>
        simp only [SemanticAnalyzer.analyze_expr] at h
        split_ifs at h
        · cases hl : hm_get st.local_var_table name with
          | none => rw [hl] at h; cases h
          | some ctx =>
            simp only [hl] at h
            cases h
            exact errors_ext_refl _
        · cases h
          exact errors_ext_push _ _ _
      | subprogramCall name args =>
        simp only [SemanticAnalyzer.analyze_expr] at h
        split_ifs at h
        · cases hl : hm_get st.subprogram_table name with
          | none => rw [hl] at h; cases h
          | some ctx =>
            simp only [hl] at h
            cases ha : SemanticAnalyzer.analyze_call_args fuel st args
                ctx.param_types with
            | panicked => simp only [ha] at h; cases h
            | fuelOut => simp only [ha] at h; cases h
            | ok st1 =>
              simp only [ha] at h
              cases hl2 : hm_get st1.subprogram_table name with
              | none => simp only [hl2] at h; cases h
              | some ctx2 =>
                simp only [hl2] at h
                cases h
                exact ih2 _ _ _ _ ha
        · cases h
          exact errors_ext_push _ _ _
      | binary op lhs rhs =>
        simp only [SemanticAnalyzer.analyze_expr] at h
        cases h1 : SemanticAnalyzer.analyze_expr fuel st lhs t with
        | panicked => rw [h1] at h; cases h
        | fuelOut => rw [h1] at h; cases h
        | ok p1 =>
          obtain ⟨st1, ty1⟩ := p1
          simp only [h1] at h
          cases h2 : SemanticAnalyzer.analyze_expr fuel st1 rhs t with
          | panicked => rw [h2] at h; cases h
          | fuelOut => rw [h2] at h; cases h
          | ok p2 =>
            obtain ⟨st2, ty2⟩ := p2
            simp only [h2] at h
            have e1 := ih1 _ _ _ _ _ h1
            have e2 := ih1 _ _ _ _ _ h2
            split at h
            · cases h
              exact errors_ext_trans (errors_ext_trans e1 e2)
                (errors_ext_push _ _ _)
            · cases h
              exact errors_ext_trans e1 e2
    · intro st args tys st' h
      cases args with
      | nil =>
        simp only [SemanticAnalyzer.analyze_call_args] at h
        cases h
        exact errors_ext_refl _
      | cons arg rest =>
        cases tys with
        | nil =>
          simp only [SemanticAnalyzer.analyze_call_args] at h
          cases h
        | cons t0 trest =>
          simp only [SemanticAnalyzer.analyze_call_args] at h
          cases h1 : SemanticAnalyzer.analyze_expr fuel st arg t0 with
          | panicked => rw [h1] at h; cases h
          | fuelOut => rw [h1] at h; cases h
          | ok p1 =>
            obtain ⟨st1, ty1⟩ := p1
            simp only [h1] at h
            exact errors_ext_trans (ih1 _ _ _ _ _ h1) (ih2 _ _ _ _ h)

/-- Inside a subprogram (`is_subprogram` set), statement analysis keeps
the flag and the expected return type and only appends errors (proved
jointly for the statement dispatcher, the plain statement-list loop and
the subprogram-body loop by fuel induction). -/
theorem analyze_stmt_sem_ext :
    ∀ fuel : Nat,
      (∀ (st : SemanticAnalyzer) (n : AstNode Stmts)
          (r : SemanticAnalyzer × AstNode Stmts),
        st.is_subprogram = true →
        SemanticAnalyzer.analyze_stmt fuel st n = Res.ok r →
        sem_ext st r.1) ∧
      (∀ (st : SemanticAnalyzer) (l acc : List (AstNode Stmts))
          (r : SemanticAnalyzer × List (AstNode Stmts)),
        st.is_subprogram = true →
        SemanticAnalyzer.analyze_stmt_list fuel st l acc = Res.ok r →
        sem_ext st r.1) ∧
      (∀ (st : SemanticAnalyzer) (b : Bool) (l acc : List (AstNode Stmts))
          (r : SemanticAnalyzer × Bool × List (AstNode Stmts)),
        st.is_subprogram = true →
        SemanticAnalyzer.analyze_body fuel st b l acc = Res.ok r →
        sem_ext st r.1) := by
  intro fuel
  induction fuel with
  | zero =>
    refine ⟨?_, ?_, ?_⟩
    · intro st n r _ h
      exact absurd h (by simp [SemanticAnalyzer.analyze_stmt])
    · intro st l acc r _ h
      exact absurd h (by simp [SemanticAnalyzer.analyze_stmt_list])
    · intro st b l acc r _ h
      exact absurd h (by simp [SemanticAnalyzer.analyze_body])
  | succ fuel ih =>
    obtain ⟨ihs, ihl, ihb⟩ := ih
    have eext := (analyze_expr_errors_ext fuel).1
    have aext := (analyze_expr_errors_ext fuel).2
    refine ⟨?_, ?_, ?_⟩
    · intro st n r hsub h
      obtain ⟨v, pos⟩ := n
      cases v with
      | write t0 e =>
        simp only [SemanticAnalyzer.analyze_stmt] at h
        cases he : SemanticAnalyzer.analyze_expr fuel st e Ty.unknown with
        | panicked => simp only [he] at h; cases h
        | fuelOut => simp only [he] at h; cases h
        | ok p =>
          obtain ⟨st1, ty1⟩ := p
          simp only [he] at h
          cases h
          exact sem_ext_of_errors_ext (eext _ _ _ _ _ he)
      | ret t0 e =>
        simp only [SemanticAnalyzer.analyze_stmt] at h
        cases he : SemanticAnalyzer.analyze_expr fuel st e Ty.unknown with
        | panicked => simp only [he] at h; cases h
        | fuelOut => simp only [he] at h; cases h
        | ok p =>
          obtain ⟨st1, ty1⟩ := p
          simp only [he] at h
          cases h
          have h1 := sem_ext_of_errors_ext (eext _ _ _ _ _ he)
          split
          · exact sem_ext_trans h1 (sem_ext_push _ _ _)
          · exact h1
      | set name vt mtb e =>
        simp only [SemanticAnalyzer.analyze_stmt] at h
        by_cases hc : hm_contains st.local_var_table name = true
        · simp only [hc, eq_self_iff_true, if_true] at h
          cases he : SemanticAnalyzer.analyze_expr fuel
              (SemanticAnalyzer.push_error st
                ("redefinition of variable " ++ name) pos) e vt with
          | panicked => simp only [he] at h; cases h
          | fuelOut => simp only [he] at h; cases h
          | ok p =>
            obtain ⟨st2, g⟩ := p
            simp only [he] at h
            cases h
            exact sem_ext_trans (sem_ext_push _ _ _)
              (sem_ext_trans (sem_ext_of_errors_ext (eext _ _ _ _ _ he))
                (sem_ext_table _ _))
        · simp only [hc, Bool.false_eq_true, if_false] at h
          cases he : SemanticAnalyzer.analyze_expr fuel st e vt with
          | panicked => simp only [he] at h; cases h
          | fuelOut => simp only [he] at h; cases h
          | ok p =>
            obtain ⟨st2, g⟩ := p
            simp only [he] at h
            cases h
            exact sem_ext_trans (sem_ext_of_errors_ext (eext _ _ _ _ _ he))
              (sem_ext_table _ _)
      | assign name e =>
        simp only [SemanticAnalyzer.analyze_stmt] at h
        split_ifs at h
        · cases hl : hm_get st.local_var_table name with
          | none => simp only [hl] at h; cases h
          | some var_ctx =>
            simp only [hl] at h
            by_cases hm : var_ctx.mutable = true
            · simp only [hm, eq_self_iff_true, if_true] at h
              cases he : SemanticAnalyzer.analyze_expr fuel st e
                  var_ctx.var_type with
              | panicked => simp only [he] at h; cases h
              | fuelOut => simp only [he] at h; cases h
              | ok p =>
                obtain ⟨st1, ty1⟩ := p
                simp only [he] at h
                cases h
                exact sem_ext_of_errors_ext (eext _ _ _ _ _ he)
            · simp only [hm, Bool.false_eq_true, if_false] at h
              cases h
              exact sem_ext_push _ _ _
        · cases h
          exact sem_ext_push _ _ _
      | subProgramDef name rt params body =>
        simp only [SemanticAnalyzer.analyze_stmt, hsub, eq_self_iff_true,
          if_true] at h
        cases h
        exact sem_ext_push _ _ _
      | subProgramCall name args =>
        simp only [SemanticAnalyzer.analyze_stmt] at h
        split_ifs at h
        · cases hl : hm_get st.subprogram_table name with
          | none => simp only [hl] at h; cases h
          | some ctx =>
            simp only [hl] at h
            cases ha : SemanticAnalyzer.analyze_call_args fuel st args
                ctx.param_types with
            | panicked => simp only [ha] at h; cases h
            | fuelOut => simp only [ha] at h; cases h
            | ok st1 =>
              simp only [ha] at h
              cases hl2 : hm_get st1.subprogram_table name with
              | none => simp only [hl2] at h; cases h
              | some ctx2 =>
                simp only [hl2] at h
                have h1 := sem_ext_of_errors_ext (aext _ _ _ _ ha)
                split at h
                · cases h
                  exact sem_ext_trans h1 (sem_ext_push _ _ _)
                · cases h
                  exact h1
        · cases h
          exact sem_ext_push _ _ _
      | ifS e body =>
        simp only [SemanticAnalyzer.analyze_stmt] at h
        cases he : SemanticAnalyzer.analyze_expr fuel st e Ty.unknown with
        | panicked => simp only [he] at h; cases h
        | fuelOut => simp only [he] at h; cases h
        | ok p =>
          obtain ⟨st1, ty1⟩ := p
          simp only [he] at h
          have h1 := sem_ext_of_errors_ext (eext _ _ _ _ _ he)
          have hsub1 : st1.is_subprogram = true := h1.1.trans hsub
          cases hb : SemanticAnalyzer.analyze_stmt_list fuel st1 body [] with
          | panicked => simp only [hb] at h; cases h
          | fuelOut => simp only [hb] at h; cases h
          | ok q =>
            obtain ⟨st2, body'⟩ := q
            simp only [hb] at h
            cases h
            exact sem_ext_trans h1 (ihl _ _ _ _ hsub1 hb)
      | elseS body =>
        simp only [SemanticAnalyzer.analyze_stmt] at h
        cases hb : SemanticAnalyzer.analyze_stmt_list fuel st body [] with
        | panicked => simp only [hb] at h; cases h
        | fuelOut => simp only [hb] at h; cases h
        | ok q =>
          obtain ⟨st1, body'⟩ := q
          simp only [hb] at h
          cases h
          exact ihl _ _ _ _ hsub hb
    · intro st l acc r hsub h
      cases l with
      | nil =>
        simp only [SemanticAnalyzer.analyze_stmt_list] at h
        cases h
        exact sem_ext_refl _
      | cons n rest =>
        simp only [SemanticAnalyzer.analyze_stmt_list] at h
        cases hs : SemanticAnalyzer.analyze_stmt fuel st n with
        | panicked => simp only [hs] at h; cases h
        | fuelOut => simp only [hs] at h; cases h
        | ok p =>
          obtain ⟨st1, n'⟩ := p
          simp only [hs] at h
          have h1 := ihs _ _ _ hsub hs
          have hsub1 : st1.is_subprogram = true := h1.1.trans hsub
          exact sem_ext_trans h1 (ihl _ _ _ _ hsub1 h)
    · intro st b l acc r hsub h
      cases l with
      | nil =>
        simp only [SemanticAnalyzer.analyze_body] at h
        cases h
        exact sem_ext_refl _
      | cons n rest =>
        simp only [SemanticAnalyzer.analyze_body] at h
        cases hs : SemanticAnalyzer.analyze_stmt fuel st n with
        | panicked => simp only [hs] at h; cases h
        | fuelOut => simp only [hs] at h; cases h
        | ok p =>
          obtain ⟨st1, n'⟩ := p
          simp only [hs] at h
          have h1 := ihs _ _ _ hsub hs
          have hsub1 : st1.is_subprogram = true := h1.1.trans hsub
          exact sem_ext_trans h1 (ihb _ _ _ _ _ hsub1 h)

/-- The `return_stmt_exists` flag computed by the subprogram-body loop is
the incoming flag joined with "some statement of the list is a
`Return`". -/
theorem analyze_body_flag :
    ∀ (fuel : Nat) (l : List (AstNode Stmts)) (st : SemanticAnalyzer)
      (b : Bool) (acc : List (AstNode Stmts))
      (r : SemanticAnalyzer × Bool × List (AstNode Stmts)),
      SemanticAnalyzer.analyze_body fuel st b l acc = Res.ok r →
      r.2.1 = (b || l.any SemanticAnalyzer.is_return_stmt) := by
  intro fuel
  induction fuel with
  | zero =>
    intro l st b acc r h
    exact absurd h (by simp [SemanticAnalyzer.analyze_body])
  | succ fuel ih =>
    intro l st b acc r h
    cases l with
    | nil =>
      simp only [SemanticAnalyzer.analyze_body] at h
      cases h
      simp
    | cons n rest =>
      simp only [SemanticAnalyzer.analyze_body] at h
      cases hs : SemanticAnalyzer.analyze_stmt fuel st n with
      | panicked => simp only [hs] at h; cases h
      | fuelOut => simp only [hs] at h; cases h
      | ok p =>
        obtain ⟨st1, n'⟩ := p
        simp only [hs] at h
        have hr := ih rest st1 (if SemanticAnalyzer.is_return_stmt n = true then true else b)
          (acc ++ [n']) r h
        rw [hr]
        cases hn : SemanticAnalyzer.is_return_stmt n <;> simp [hn]

/-- C6 counterexample: analyzing `func f(x: int): int start stop` (no
`Return` in the body) finishes with the missing-return error, but the
early return skips `local_var_table.clear()`: the parameter `x` is still
in the local variable table when the analysis of this definition completes. -/
theorem c6_counterexample :
    SemanticAnalyzer.analyze_stmt 9 SemanticAnalyzer.new fdef =
      Res.ok (c6_state, fdef) ∧
    c6_state.local_var_table ≠ [] :=
  ⟨rfl, by decide⟩

/-- C6 amended: the local variable table is cleared when the definition's
analysis runs to the end of the `SubProgramDef` arm — in particular
whenever the body contains a top-level `Return` statement — but not when
the missing-return early return (non-`Void` type, no `Return`) or the
nested-definition early return fires, which leave the table as it was. -/
theorem c6_table_cleared_on_normal_completion :
    (∀ (fuel : Nat) (st : SemanticAnalyzer) (name : String) (rt : Ty)
        (params : List Param) (body : List (AstNode Stmts)) (pos : Position)
        (r : SemanticAnalyzer × AstNode Stmts),
      st.is_subprogram = false →
      body.any SemanticAnalyzer.is_return_stmt = true →
      SemanticAnalyzer.analyze_stmt fuel st
        ⟨Stmts.subProgramDef name rt params body, pos⟩ = Res.ok r →
      r.1.local_var_table = [] ∧ r.1.is_subprogram = false) ∧
    SemanticAnalyzer.analyze_stmt 9 SemanticAnalyzer.new hdef =
      Res.ok hdef_result := by
  refine ⟨?_, rfl⟩
  intro fuel st name rt params body pos r hns hret h
  cases fuel with
  | zero => exact absurd h (by simp [SemanticAnalyzer.analyze_stmt])
  | succ fuel =>
    simp only [SemanticAnalyzer.analyze_stmt, hns, Bool.false_eq_true,
      if_false] at h
    split at h
    case _ st3 flag stmts' heq =>
      have hflag : flag = true := by
        have := analyze_body_flag fuel body _ false [] _ heq
        simpa [hret] using this
      subst hflag
      simp only [not_true, eq_self_iff_true, false_and, if_false] at h
      cases h
      exact ⟨rfl, rfl⟩
    case _ heq => cases h
    case _ heq => cases h

/-- Witness for the amended C6: analyzing `hdef` (body contains `return
0;`) from a fresh analyzer clears the local variable table and resets the
flag. -/
theorem c6_table_cleared_on_normal_completion_witness :
    SemanticAnalyzer.new.is_subprogram = false ∧
    ([⟨Stmts.ret .unknown ⟨.number 0, tpos 1⟩, tpos 1⟩] :
      List (AstNode Stmts)).any SemanticAnalyzer.is_return_stmt = true ∧
    (hdef_result.1.local_var_table = [] ∧ hdef_result.1.is_subprogram = false) :=
  ⟨rfl, rfl,
   c6_table_cleared_on_normal_completion.1 9 SemanticAnalyzer.new "h" Ty.int
     [⟨.int, "x"⟩] [⟨Stmts.ret .unknown ⟨.number 0, tpos 1⟩, tpos 1⟩] (tpos 0)
     hdef_result rfl rfl c6_table_cleared_on_normal_completion.2⟩

/-- C7: a subprogram definition with a non-`Void` return type whose body
contains zero `Return` statements makes the check pass record the
missing-return error (the error list ends with exactly that error);
concretely, the program with `func f(): int start stop` fails analysis
with batched errors while the program with `proc p() start stop` (zero
`Return` statements, `Void`) passes analysis. -/
theorem c7_missing_return_check :
    (∀ (fuel : Nat) (st : SemanticAnalyzer) (name : String) (rt : Ty)
        (params : List Param) (body : List (AstNode Stmts)) (pos : Position)
        (r : SemanticAnalyzer × AstNode Stmts),
      st.is_subprogram = false →
      rt ≠ Ty.void →
      body.any SemanticAnalyzer.is_return_stmt = false →
      SemanticAnalyzer.analyze_stmt fuel st
        ⟨Stmts.subProgramDef name rt params body, pos⟩ = Res.ok r →
      ∃ es, r.1.errors = st.errors ++ es ++
        [⟨"subprogram " ++ name ++ " does not have a return statement", pos⟩]) ∧
    (∃ errs ast', analyze_ast 20 [f_noret, main_def] =
      Res.ok (AnalyzeOutcome.failed errs ast')) ∧
    (∃ ast', analyze_ast 20 [p_noret, main_def] =
      Res.ok (AnalyzeOutcome.success ast')) := by
  refine ⟨?_, ⟨_, _, rfl⟩, ⟨_, rfl⟩⟩
  intro fuel st name rt params body pos r hns hrt hnoret h
  cases fuel with
  | zero => exact absurd h (by simp [SemanticAnalyzer.analyze_stmt])
  | succ fuel =>
    simp only [SemanticAnalyzer.analyze_stmt, hns, Bool.false_eq_true,
      if_false] at h
    split at h
    case _ st3 flag stmts' heq =>
      have hflag : flag = false := by
        have := analyze_body_flag fuel body _ false [] _ heq
        simpa [hnoret] using this
      subst hflag
      have hse := (analyze_stmt_sem_ext fuel).2.2 _ false body [] _ rfl heq
      obtain ⟨hi, he2, es, hes⟩ := hse
      have hert : st3.expected_return_type = rt := he2
      rw [if_pos ⟨by simp, by rw [hert]; exact hrt⟩] at h
      cases h
      refine ⟨es, ?_⟩
      show st3.errors ++ _ = _
      rw [hes]
    case _ heq => cases h
    case _ heq => cases h

/-- Witness for C7: applying the missing-return fact to
`func f(): int start stop` from a fresh analyzer: exactly the
missing-return error is recorded. -/
theorem c7_missing_return_check_witness :
    ∃ es, c7_result.1.errors = SemanticAnalyzer.new.errors ++ es ++
      [⟨"subprogram f does not have a return statement", tpos 0⟩] :=
  c7_missing_return_check.1 9 SemanticAnalyzer.new "f" Ty.int [] [] (tpos 0)
    c7_result rfl (by decide) rfl rfl

/-- If no newline remains in the unread input, the comment loop of
`skip_whitespace` never terminates: at end of input `peek` returns `'\0'`
(never `'\n'`) and `advance` no longer moves, so every fuel amount is
exhausted. -/
theorem comment_loop_diverges :
    ∀ (fuel : Nat) (l : Lexer), '\n' ∉ l.source.drop l.read_pos →
      Lexer.comment_loop fuel l = Res.fuelOut := by
  intro fuel
  induction fuel with
  | zero => intro l _; rfl
  | succ fuel ih =>
    intro l hno
    have hpeek : Lexer.peek l ≠ '\n' := by
      unfold Lexer.peek
      split
      · decide
      · rename_i hge
        have hlt : l.read_pos < l.source.length := by omega
        rw [List.getD_eq_getElem _ _ hlt]
        intro hc
        apply hno
        rw [List.drop_eq_getElem_cons hlt, hc]
        exact List.mem_cons_self _ _
    show (if Lexer.peek l ≠ '\n' then Lexer.comment_loop fuel (Lexer.advance l).2
          else Res.ok l) = Res.fuelOut
    rw [if_pos hpeek]
    by_cases hge : l.read_pos ≥ l.source.length
    · have hadv : (Lexer.advance l).2 = l := by
        unfold Lexer.advance
        rw [if_pos hge]
      rw [hadv]
      exact ih l hno
    · have hadv : (Lexer.advance l).2 =
          { l with column := l.column + 1, pos := l.read_pos,
                   read_pos := l.read_pos + 1 } := by
        unfold Lexer.advance
        rw [if_neg hge]
      rw [hadv]
      apply ih
      show '\n' ∉ l.source.drop (l.read_pos + 1)
      intro hc
      apply hno
      have hsub : l.source.drop (l.read_pos + 1) ⊆ l.source.drop l.read_pos := by
        rw [← List.drop_drop 1 l.read_pos l.source, List.drop_one]
        exact List.tail_subset _
      exact hsub hc

/-- If no double quote remains in the unread input, the string-literal
loop of `next_token` never terminates (it keeps appending `'\0'` to the
buffer without moving). -/
theorem string_loop_diverges :
    ∀ (fuel : Nat) (l : Lexer) (acc : List Char),
      '"' ∉ l.source.drop l.read_pos →
      Lexer.string_loop fuel l acc = Res.fuelOut := by
  intro fuel
  induction fuel with
  | zero => intro l acc _; rfl
  | succ fuel ih =>
    intro l acc hno
    have hpeek : Lexer.peek l ≠ '"' := by
      unfold Lexer.peek
      split
      · decide
      · rename_i hge
        have hlt : l.read_pos < l.source.length := by omega
        rw [List.getD_eq_getElem _ _ hlt]
        intro hc
        apply hno
        rw [List.drop_eq_getElem_cons hlt, hc]
        exact List.mem_cons_self _ _
    show (if Lexer.peek l ≠ '"' then
            Lexer.string_loop fuel (Lexer.advance l).2 (acc ++ [(Lexer.advance l).1])
          else Res.ok (acc, l)) = Res.fuelOut
    rw [if_pos hpeek]
    by_cases hge : l.read_pos ≥ l.source.length
    · have hadv : (Lexer.advance l).2 = l := by
        unfold Lexer.advance
        rw [if_pos hge]
      rw [hadv]
      exact ih l _ hno
    · have hadv : (Lexer.advance l).2 =
          { l with column := l.column + 1, pos := l.read_pos,
                   read_pos := l.read_pos + 1 } := by
        unfold Lexer.advance
        rw [if_neg hge]
      rw [hadv]
      apply ih
      show '"' ∉ l.source.drop (l.read_pos + 1)
      intro hc
      apply hno
      have hsub : l.source.drop (l.read_pos + 1) ⊆ l.source.drop l.read_pos := by
        rw [← List.drop_drop 1 l.read_pos l.source, List.drop_one]
        exact List.tail_subset _
      exact hsub hc

/-- C9: `next_token` does not terminate on every input: on the input
`//a` — ending in a `//` comment with no trailing newline — and on the
input `"ab` — an unterminated string literal — it exhausts every fuel
amount, i.e. the token sequence is not finite and end-of-input is never
reported. -/
theorem c9_next_token_diverges :
    (∀ fuel : Nat,
      Lexer.next_token fuel (Lexer.new "t.pseudo" "//a") = Res.fuelOut) ∧
    (∀ fuel : Nat,
      Lexer.next_token fuel (Lexer.new "t.pseudo" "\"ab") = Res.fuelOut) := by
  constructor
  · intro fuel
    have hsw : Lexer.skip_whitespace fuel (Lexer.new "t.pseudo" "//a") =
        Res.fuelOut := by
      cases fuel with
      | zero => rfl
      | succ fuel =>
        have hcl : Lexer.comment_loop fuel (Lexer.new "t.pseudo" "//a") =
            Res.fuelOut :=
          comment_loop_diverges fuel _ (by decide)
        show (match Lexer.comment_loop fuel (Lexer.new "t.pseudo" "//a") with
              | .ok l' => Lexer.skip_whitespace fuel l'
              | .panicked => Res.panicked
              | .fuelOut => Res.fuelOut) = Res.fuelOut
        rw [hcl]
    show Res.bind (Lexer.skip_whitespace fuel (Lexer.new "t.pseudo" "//a")) _ =
      Res.fuelOut
    rw [hsw]
    rfl
  · intro fuel
    cases fuel with
    | zero => rfl
    | succ fuel =>
      have hsl : Lexer.string_loop (fuel + 1)
          ⟨['"', 'a', 'b'], 0, 1, 1, 1, "t.pseudo"⟩ [] = Res.fuelOut :=
        string_loop_diverges (fuel + 1) _ [] (by decide)
      show Res.bind (Lexer.string_loop (fuel + 1)
          ⟨['"', 'a', 'b'], 0, 1, 1, 1, "t.pseudo"⟩ []) _ = Res.fuelOut
      rw [hsl]
      rfl
